import Mathlib

/-!
Verification of the hourly_llm_checkin repository: a shallow embedding of the
conversational state machine (bot/bot.py), the LLM-response normalizer
(bot/llm.py), and the activity ledger (track/core.py), with theorems settling
the frozen behavioural claims.

Modelling conventions:
* Python strings are Lean `String`; Python string methods (`strip`, `lower`,
  `split`) are embedded over `List Char`.  Python whitespace and case folding
  are modelled for the ASCII range (the strings the program compares are ASCII
  literals).
* Python floats are `PyF`: an exact rational plus the special values inf,
  -inf, nan.  The operations the source applies to durations (comparison with
  zero, identity coercion by `float(...)`) are exact in this model.
* Decoded JSON (the result of `json.loads`) is the inductive `Json`; Python
  `bool` is kept separate because the source distinguishes it via
  `isinstance` (and Python treats `True` as the integer 1 where it is used
  as one).
* Timestamps are rational numbers of minutes on a linear scale whose origin is
  0001-01-01 00:00; calendar parsing converts through a proleptic-Gregorian
  day count, mirroring the arithmetic of the `datetime` values the source
  manipulates.
* Effectful calls (the opaque model call, SQLAlchemy sessions, message
  delivery) are embedded by explicit state passing and by `Except`-valued
  parameters standing for the outcome of each external call.
-/

namespace HourlyCheckin

/-- Python whitespace predicate restricted to the ASCII range: the character
set stripped by str.strip() and matched by str.split() with no argument. -/
def pyIsSpace (c : Char) : Bool :=
  c = ' ' || c = '\t' || c = '\n' || c = '\r' || c = '\x0b' || c = '\x0c'

/-- Strip characters satisfying pyIsSpace from the left of a character list
(the left half of Python str.strip()). -/
def lstripL (l : List Char) : List Char := l.dropWhile pyIsSpace

/-- Strip characters satisfying pyIsSpace from the right of a character list
(the right half of Python str.strip()). -/
def rstripL (l : List Char) : List Char := (l.reverse.dropWhile pyIsSpace).reverse

/-- Python str.strip() with no argument, on character lists. -/
def pyStripL (l : List Char) : List Char := rstripL (lstripL l)

/-- Python str.strip() with no argument. -/
def pyStrip (s : String) : String := String.mk (pyStripL s.data)

/-- ASCII lower-casing of one character, the fragment of Python str.lower()
exercised by the source (all compared literals are ASCII). -/
def lowerChar (c : Char) : Char :=
  if 'A' ≤ c && c ≤ 'Z' then Char.ofNat (c.toNat + 32) else c

/-- ASCII fragment of Python str.lower(). -/
def lowerAscii (s : String) : String := String.mk (s.data.map lowerChar)

theorem dropWhile_dropWhile (p : Char → Bool) (l : List Char) :
    (l.dropWhile p).dropWhile p = l.dropWhile p := by
  induction l with
  | nil => rfl
  | cons a t ih =>
      by_cases h : p a
      · simp [List.dropWhile, h, ih]
      · simp [List.dropWhile, h]

theorem dropWhile_head_false (p : Char → Bool) (l : List Char) (a : Char)
    (t : List Char) (h : l.dropWhile p = a :: t) : p a = false := by
  induction l with
  | nil => simp [List.dropWhile] at h
  | cons b u ih =>
      by_cases hb : p b
      · exact ih (by simpa [List.dropWhile, hb] using h)
      · rw [List.dropWhile_cons_of_neg hb] at h
        cases h
        simpa using hb

theorem dropWhile_eq_self_of_head_false (p : Char → Bool) (a : Char)
    (t : List Char) (h : p a = false) :
    (a :: t).dropWhile p = a :: t := by
  simp [List.dropWhile, h]

theorem rstripL_rstripL (l : List Char) : rstripL (rstripL l) = rstripL l := by
  unfold rstripL
  rw [List.reverse_reverse, dropWhile_dropWhile]

theorem rstripL_sublist_aux (l : List Char) :
    ∃ u : List Char, l = rstripL l ++ u := by
  unfold rstripL
  obtain ⟨u, hu⟩ : ∃ u, l.reverse = u ++ l.reverse.dropWhile pyIsSpace :=
    ⟨l.reverse.takeWhile pyIsSpace, (List.takeWhile_append_dropWhile ..).symm⟩
  refine ⟨u.reverse, ?_⟩
  have := congrArg List.reverse hu
  simpa using this

theorem lstrip_of_lstripped (l : List Char) (h : lstripL l = l) :
    lstripL (rstripL l) = rstripL l := by
  cases hr : rstripL l with
  | nil => rfl
  | cons a t =>
      obtain ⟨u, hu⟩ := rstripL_sublist_aux l
      rw [hr] at hu
      have ha : pyIsSpace a = false := by
        cases hl : l with
        | nil => rw [hl] at hu; exact absurd hu.symm (by simp)
        | cons b v =>
            have hb : pyIsSpace b = false := by
              have := h
              rw [hl] at this
              exact dropWhile_head_false pyIsSpace (b :: v) b v
                (by simpa [lstripL] using this)
            have : b = a := by
              rw [hl] at hu
              exact (List.cons.injEq ..).mp hu |>.1
            rw [← this]; exact hb
      exact dropWhile_eq_self_of_head_false pyIsSpace a t ha

theorem lstripL_lstripL (l : List Char) : lstripL (lstripL l) = lstripL l :=
  dropWhile_dropWhile pyIsSpace l

theorem pyStripL_idem (l : List Char) : pyStripL (pyStripL l) = pyStripL l := by
  unfold pyStripL
  rw [lstrip_of_lstripped (lstripL l) (lstripL_lstripL l), rstripL_rstripL]

theorem pyStrip_idem (s : String) : pyStrip (pyStrip s) = pyStrip s := by
  show String.mk (pyStripL (String.mk (pyStripL s.data)).data) = String.mk (pyStripL s.data)
  rw [show (String.mk (pyStripL s.data)).data = pyStripL s.data from rfl,
    pyStripL_idem]

/-- Python float values: an exact rational together with the IEEE special
values.  Exactness is a sound abstraction for every operation the source
performs on durations (compare with 0, re-coerce with float(...)); binary
rounding of decimal literals does not change any of those outcomes.  Note:
CPython object identity makes a re-coerced float compare equal to itself even
for nan (float(x) returns x itself and tuple comparison short-circuits on
identity), so structural equality of this type matches the dataclass equality
the source relies on. -/
inductive PyF where
  | fin (q : ℚ)
  | pinf
  | ninf
  | nan
deriving DecidableEq, Repr

/-- A Python number as the source meets it after isinstance checks: an int
(Python bool is an int subtype and is folded to 0/1 where the source uses it
as a number) or a float. -/
inductive PyNum where
  | pint (n : ℤ)
  | pfloat (f : PyF)
deriving DecidableEq, Repr

/-- Python comparison value <= 0 for the numbers that reach the duration
check; nan <= 0 is False in Python. -/
def PyNum.leZero : PyNum → Bool
  | .pint n => n ≤ 0
  | .pfloat (.fin q) => q ≤ 0
  | .pfloat .pinf => false
  | .pfloat .ninf => true
  | .pfloat .nan => false

/-- Python float(x) applied to a number: ints convert exactly, floats are
returned unchanged. -/
def PyNum.toFloat : PyNum → PyF
  | .pint n => .fin (n : ℚ)
  | .pfloat f => f

/-- Values produced by json.loads: null, bool, int, float, string, array,
object.  Object keys are unique (json.loads keeps the last duplicate), and
lookup is by key. -/
inductive Json where
  | null
  | jbool (b : Bool)
  | jint (n : ℤ)
  | jfloat (f : PyF)
  | jstr (s : String)
  | jarr (xs : List Json)
  | jobj (fields : List (String × Json))

/-- dict.get on a decoded JSON object: the value at the key, if present. -/
def getKey (fields : List (String × Json)) (k : String) : Option Json :=
  match fields with
  | [] => none
  | (k0, v) :: rest => if k0 = k then some v else getKey rest k

/-- Python truthiness of a decoded JSON value (None, False, 0, 0.0, empty
string/list/dict are falsy; nan and the infinities are truthy). -/
def truthy : Json → Bool
  | .null => false
  | .jbool b => b
  | .jint n => n ≠ 0
  | .jfloat (.fin q) => q ≠ 0
  | .jfloat _ => true
  | .jstr s => s ≠ ""
  | .jarr xs => !xs.isEmpty
  | .jobj fs => !fs.isEmpty

/-- Python x or y on two optional dict lookups (None models an absent key or
an explicit null): the first operand if it is truthy, otherwise the second. -/
def pyOr (a b : Option Json) : Option Json :=
  match a with
  | some v => if truthy v then some v else b
  | none => b

/-- Decimal rendering used by the approximate str() below. -/
def pyStrRat (q : ℚ) : String :=
  if q.den = 1 then toString q.num ++ ".0" else toString q.num ++ "/" ++ toString q.den

/-- Scalar renderer backing the approximate str() below: containers nested
deeper than one level are elided. -/
def pyStrScalar : Json → String
  | .null => "None"
  | .jbool true => "True"
  | .jbool false => "False"
  | .jint n => toString n
  | .jfloat (.fin q) => pyStrRat q
  | .jfloat .pinf => "inf"
  | .jfloat .ninf => "-inf"
  | .jfloat .nan => "nan"
  | .jstr s => s
  | .jarr _ => "[...]"
  | .jobj _ => "\x7b...\x7d"

/-- Python str() of a decoded JSON value.  Scalars follow CPython (None,
True, False, decimal integers, identity on strings); float rendering and
containers nested below one level are approximations (CPython prints
shortest-round-trip floats and repr-style quoting), which no theorem below
depends on: the normalizer only ever strips the rendered text and compares
it with the empty string. -/
def pyStr : Json → String
  | .jarr xs => "[" ++ String.intercalate ", " (xs.map pyStrScalar) ++ "]"
  | .jobj fs => "\x7b" ++ String.intercalate ", "
      (fs.map (fun f => f.1 ++ ": " ++ pyStrScalar f.2)) ++ "\x7d"
  | v => pyStrScalar v

/-- Digit-sequence parser with the PEP 515 underscore rule (a single
underscore may separate two digits): returns the value and the digit count. -/
def udigits (sawDigit : Bool) (acc count : ℕ) : List Char → Option (ℕ × ℕ)
  | [] => if sawDigit then some (acc, count) else none
  | '_' :: c :: rest =>
      if sawDigit && c.isDigit then
        udigits true (acc * 10 + (c.toNat - 48)) (count + 1) rest
      else none
  | c :: rest =>
      if c.isDigit && c ≠ '_' then
        udigits true (acc * 10 + (c.toNat - 48)) (count + 1) rest
      else none

/-- Python int(s) for base-10 string input: strip whitespace, optional sign,
digits (with PEP 515 underscores). -/
def pyIntOfString (s : String) : Option ℤ :=
  match pyStripL s.data with
  | '+' :: rest => (udigits false 0 0 rest).map (fun p => (p.1 : ℤ))
  | '-' :: rest => (udigits false 0 0 rest).map (fun p => -(p.1 : ℤ))
  | rest => (udigits false 0 0 rest).map (fun p => (p.1 : ℤ))

/-- Mantissa of a Python float literal: digits, optionally containing one
point, with at least one digit overall; returns the value as a rational. -/
def pyFloatMantissa (l : List Char) : Option ℚ :=
  match l.splitOn '.' with
  | [ip] => (udigits false 0 0 ip).map (fun p => (p.1 : ℚ))
  | [ip, fp] =>
      match udigits false 0 0 ip, udigits false 0 0 fp with
      | some p, some q => some ((p.1 : ℚ) + (q.1 : ℚ) / ((10 : ℚ) ^ q.2))
      | some p, none => if fp = [] then some ((p.1 : ℚ)) else none
      | none, some q => if ip = [] then some ((q.1 : ℚ) / ((10 : ℚ) ^ q.2)) else none
      | none, none => none
  | _ => none

/-- Unsigned body of Python float(s): the keywords inf, infinity, nan, or a
decimal literal with optional exponent. -/
def pyFloatBody (l : List Char) : Option PyF :=
  let low := l.map lowerChar
  if low = "inf".data || low = "infinity".data then some .pinf
  else if low = "nan".data then some .nan
  else
    match (low.splitOn 'e') with
    | [m] => (pyFloatMantissa m).map .fin
    | [m, e] =>
        match pyFloatMantissa m with
        | none => none
        | some q =>
            match e with
            | '+' :: rest => (udigits false 0 0 rest).map
                (fun p => .fin (q * (10 : ℚ) ^ (p.1 : ℤ)))
            | '-' :: rest => (udigits false 0 0 rest).map
                (fun p => .fin (q * (10 : ℚ) ^ (-(p.1 : ℤ))))
            | rest => (udigits false 0 0 rest).map
                (fun p => .fin (q * (10 : ℚ) ^ (p.1 : ℤ)))
    | _ => none

/-- Python float(s) for string input: strip whitespace, optional sign, then
keyword or decimal literal.  The value is kept as an exact rational
(subnormal underflow and rounding to binary are not modelled; no claim
depends on them). -/
def pyFloatOfString (s : String) : Option PyF :=
  match pyStripL s.data with
  | '+' :: rest => pyFloatBody rest
  | '-' :: rest =>
      match pyFloatBody rest with
      | some (.fin q) => some (.fin (-q))
      | some .pinf => some .ninf
      | some .ninf => some .pinf
      | some .nan => some .nan
      | none => none
  | rest => pyFloatBody rest

/-- The opening-brace character, written by code point to keep braces out of
literals. -/
def obrace : Char := Char.ofNat 123

/-- The closing-brace character. -/
def cbrace : Char := Char.ofNat 125

/-- Index of the first occurrence of a character in a list, if any. -/
def firstIdx (c : Char) : List Char → Option ℕ
  | [] => none
  | d :: rest => if d = c then some 0 else (firstIdx c rest).map (· + 1)

/-- Index of the last occurrence of a character in a list, if any. -/
def lastIdx (c : Char) : List Char → Option ℕ
  | [] => none
  | d :: rest =>
      match lastIdx c rest with
      | some i => some (i + 1)
      | none => if d = c then some 0 else none

/-- Python str.find for a single character: first index, or -1. -/
def pyFind (c : Char) (l : List Char) : ℤ :=
  match firstIdx c l with
  | some i => (i : ℤ)
  | none => -1

/-- Python str.rfind for a single character: last index, or -1. -/
def pyRFind (c : Char) (l : List Char) : ℤ :=
  match lastIdx c l with
  | some i => (i : ℤ)
  | none => -1

/-- Python text[a : b+1] for 0 ≤ a ≤ b < len(text). -/
def pySlice (l : List Char) (a b : ℤ) : String :=
  String.mk ((l.drop a.toNat).take (b + 1 - a).toNat)

/-- extract_json from bot/llm.py lines 52-67: find the first opening brace
and bracket; if the bracket exists and precedes the brace (or the brace is
absent) take the span to the last closing bracket, else the span from the
first brace to the last closing brace; raise ValueError when neither opener
exists or the chosen span is degenerate. -/
def extract_json (s : String) : Except String String :=
  if pyFind obrace s.data = -1 ∧ pyFind '[' s.data = -1 then
    .error "LLM response did not include JSON"
  else if pyFind '[' s.data ≠ -1 ∧
      (pyFind obrace s.data = -1 ∨ pyFind '[' s.data < pyFind obrace s.data) then
    if pyRFind ']' s.data = -1 ∨ pyRFind ']' s.data ≤ pyFind '[' s.data then
      .error "LLM response did not include JSON array"
    else .ok (pySlice s.data (pyFind '[' s.data) (pyRFind ']' s.data))
  else
    if pyFind obrace s.data = -1 ∨ pyRFind cbrace s.data = -1 ∨
        pyRFind cbrace s.data ≤ pyFind obrace s.data then
      .error "LLM response did not include JSON object"
    else .ok (pySlice s.data (pyFind obrace s.data) (pyRFind cbrace s.data))

theorem firstIdx_get (c : Char) (l : List Char) (i : ℕ)
    (h : firstIdx c l = some i) : l.get? i = some c := by
  induction l generalizing i with
  | nil => simp [firstIdx] at h
  | cons d rest ih =>
      by_cases hd : d = c
      · simp [firstIdx, hd] at h
        subst h; simp [hd]
      · simp [firstIdx, hd] at h
        obtain ⟨j, hj, rfl⟩ := h
        simpa using ih j hj

theorem firstIdx_ne (l : List Char) (bi oi : ℕ)
    (hb : firstIdx '[' l = some bi) (ho : firstIdx obrace l = some oi) :
    bi ≠ oi := by
  intro h
  subst h
  have h1 := firstIdx_get '[' l bi hb
  have h2 := firstIdx_get obrace l bi ho
  rw [h1] at h2
  exact absurd (Option.some.inj h2) (by decide)

theorem pySlice_cast (l : List Char) (a b : ℕ) :
    pySlice l (a : ℤ) (b : ℤ) = String.mk ((l.drop a).take (b + 1 - a)) := by
  unfold pySlice
  have h1 : ((a : ℤ)).toNat = a := Int.toNat_natCast a
  have h2 : ((b : ℤ) + 1 - (a : ℤ)).toNat = b + 1 - a := by omega
  rw [h1, h2]

/-- C7: extract_json fails with the no-JSON error exactly when the text has
no opening brace or bracket, or when the latest closer of the chosen kind
does not occur strictly after the earliest opener of that kind (the array
kind is chosen when its opening token occurs no later than the object's);
otherwise it returns the substring from that earliest opener through that
latest closer. -/
theorem c7_extract_json (s : String) :
    (firstIdx obrace s.data = none → firstIdx '[' s.data = none →
      extract_json s = .error "LLM response did not include JSON")
    ∧ (∀ bi, firstIdx '[' s.data = some bi →
        (firstIdx obrace s.data = none ∨
          ∃ oi, firstIdx obrace s.data = some oi ∧ bi ≤ oi) →
        (∀ ei, lastIdx ']' s.data = some ei → bi < ei →
            extract_json s = .ok (String.mk ((s.data.drop bi).take (ei + 1 - bi))))
        ∧ ((lastIdx ']' s.data = none ∨
              ∃ ei, lastIdx ']' s.data = some ei ∧ ei ≤ bi) →
            extract_json s = .error "LLM response did not include JSON array"))
    ∧ (∀ oi, firstIdx obrace s.data = some oi →
        (firstIdx '[' s.data = none ∨
          ∃ bi, firstIdx '[' s.data = some bi ∧ oi < bi) →
        (∀ ei, lastIdx cbrace s.data = some ei → oi < ei →
            extract_json s = .ok (String.mk ((s.data.drop oi).take (ei + 1 - oi))))
        ∧ ((lastIdx cbrace s.data = none ∨
              ∃ ei, lastIdx cbrace s.data = some ei ∧ ei ≤ oi) →
            extract_json s = .error "LLM response did not include JSON object")) := by
  refine ⟨?_, ?_, ?_⟩
  · intro ho hb
    simp [extract_json, pyFind, ho, hb]
  · intro bi hb hor
    have harm : pyFind '[' s.data = (bi : ℤ) := by simp [pyFind, hb]
    have hbrace : pyFind obrace s.data = -1 ∨
        ∃ oi : ℕ, pyFind obrace s.data = (oi : ℤ) ∧ bi < oi := by
      rcases hor with h | ⟨oi, ho, hle⟩
      · exact Or.inl (by simp [pyFind, h])
      · refine Or.inr ⟨oi, by simp [pyFind, ho], ?_⟩
        exact lt_of_le_of_ne hle (firstIdx_ne s.data bi oi hb ho)
    have hbne : ¬((bi : ℤ) = -1) := by omega
    constructor
    · intro ei he hlt
      have hend : pyRFind ']' s.data = (ei : ℤ) := by simp [pyRFind, he]
      have hnle : ¬((ei : ℤ) ≤ (bi : ℤ)) := by omega
      have hene : ¬((ei : ℤ) = -1) := by omega
      rcases hbrace with h | ⟨oi, h, hoi⟩
      · simp [extract_json, harm, hend, h, hbne, hnle, hene, pySlice_cast]
      · have hblt : (bi : ℤ) < (oi : ℤ) := by exact_mod_cast hoi
        simp [extract_json, harm, hend, h, hbne, hnle, hene, hblt, pySlice_cast]
    · intro hdeg
      have hend : pyRFind ']' s.data = -1 ∨
          ∃ ei : ℕ, pyRFind ']' s.data = (ei : ℤ) ∧ ei ≤ bi := by
        rcases hdeg with h | ⟨ei, he, hle⟩
        · exact Or.inl (by simp [pyRFind, h])
        · exact Or.inr ⟨ei, by simp [pyRFind, he], hle⟩
      rcases hbrace with h | ⟨oi, h, hoi⟩ <;>
          rcases hend with he | ⟨ei, he, hei⟩
      · simp [extract_json, harm, he, h, hbne]
      · have hle : (ei : ℤ) ≤ (bi : ℤ) := by exact_mod_cast hei
        simp [extract_json, harm, he, h, hbne, hle]
      · have hblt : (bi : ℤ) < (oi : ℤ) := by exact_mod_cast hoi
        simp [extract_json, harm, he, h, hbne, hblt]
      · have hblt : (bi : ℤ) < (oi : ℤ) := by exact_mod_cast hoi
        have hle : (ei : ℤ) ≤ (bi : ℤ) := by exact_mod_cast hei
        simp [extract_json, harm, he, h, hbne, hblt, hle]
  · intro oi ho hor
    have harm : pyFind obrace s.data = (oi : ℤ) := by simp [pyFind, ho]
    have hbracket : pyFind '[' s.data = -1 ∨
        ∃ bi : ℕ, pyFind '[' s.data = (bi : ℤ) ∧ oi < bi := by
      rcases hor with h | ⟨bi, hb, hlt⟩
      · exact Or.inl (by simp [pyFind, h])
      · exact Or.inr ⟨bi, by simp [pyFind, hb], hlt⟩
    have hone : ¬((oi : ℤ) = -1) := by omega
    constructor
    · intro ei he hlt
      have hend : pyRFind cbrace s.data = (ei : ℤ) := by simp [pyRFind, he]
      have hnle : ¬((ei : ℤ) ≤ (oi : ℤ)) := by omega
      have hene : ¬((ei : ℤ) = -1) := by omega
      rcases hbracket with h | ⟨bi, h, hbi⟩
      · simp [extract_json, harm, hend, h, hone, hnle, hene, pySlice_cast]
      · have hbne : ¬((bi : ℤ) = -1) := by omega
        have hnlt : ¬((bi : ℤ) < (oi : ℤ)) := by omega
        simp [extract_json, harm, hend, h, hone, hnle, hene, hbne, hnlt,
          pySlice_cast]
    · intro hdeg
      have hend : pyRFind cbrace s.data = -1 ∨
          ∃ ei : ℕ, pyRFind cbrace s.data = (ei : ℤ) ∧ ei ≤ oi := by
        rcases hdeg with h | ⟨ei, he, hle⟩
        · exact Or.inl (by simp [pyRFind, h])
        · exact Or.inr ⟨ei, by simp [pyRFind, he], hle⟩
      rcases hbracket with h | ⟨bi, h, hbi⟩ <;>
          rcases hend with he | ⟨ei, he, hei⟩
      · simp [extract_json, harm, he, h, hone]
      · have hle : (ei : ℤ) ≤ (oi : ℤ) := by exact_mod_cast hei
        simp [extract_json, harm, he, h, hone, hle]
      · have hbne : ¬((bi : ℤ) = -1) := by omega
        have hnlt : ¬((bi : ℤ) < (oi : ℤ)) := by omega
        simp [extract_json, harm, he, h, hone, hbne, hnlt]
      · have hbne : ¬((bi : ℤ) = -1) := by omega
        have hnlt : ¬((bi : ℤ) < (oi : ℤ)) := by omega
        have hle : (ei : ℤ) ≤ (oi : ℤ) := by exact_mod_cast hei
        simp [extract_json, harm, he, h, hone, hbne, hnlt, hle]

/-- C7 witness: on the concrete model output from the spec the theorem yields
the embedded object, and a bracket-free bracketless text yields the no-JSON
error. -/
theorem c7_extract_json_witness :
    extract_json "blah \x7b\"a\":1\x7d trailing" = .ok "\x7b\"a\":1\x7d"
    ∧ extract_json "no json here" = .error "LLM response did not include JSON" := by
  constructor
  · have h := ((c7_extract_json "blah \x7b\"a\":1\x7d trailing").2.2 5
      (by decide) (Or.inl (by decide))).1 11 (by decide) (by decide)
    rw [h]
    rfl
  · exact (c7_extract_json "no json here").1 (by decide) (by decide)

/-- ActivityData from bot/llm.py lines 10-16: the validated activity draft.
Its five fields are exactly those of the source dataclass; in particular
there is no why field (bot/bot.py nevertheless reads one, see C1). -/
structure ActivityData where
  description : String
  duration_minutes : PyF
  quadrant : ℤ
  tags : Option (List String)
  when : Option String
deriving DecidableEq, Repr

/-- Description handling in normalize_activity (llm.py:71,76-77,104): must be
a string whose strip() is non-empty; the draft stores the stripped text. -/
def normDescription (v : Option Json) : Except String String :=
  match v with
  | some (.jstr s) => if pyStrip s = "" then .error "Missing description"
      else .ok (pyStrip s)
  | _ => .error "Missing description"

/-- Duration coercion in normalize_activity (llm.py:78-83): a string is
passed through float() (failure makes it None), ints and floats pass
unchanged (Python bool is an int with value 0 or 1), anything else fails the
isinstance check. -/
def coerceDuration (v : Option Json) : Option PyNum :=
  match v with
  | some (.jstr s) => (pyFloatOfString s).map PyNum.pfloat
  | some (.jint n) => some (.pint n)
  | some (.jbool b) => some (.pint (if b then 1 else 0))
  | some (.jfloat f) => some (.pfloat f)
  | _ => none

/-- Duration validation (llm.py:83-84) plus the final float() coercion
(llm.py:105): rejects non-numbers and values <= 0. -/
def normDuration (v : Option Json) : Except String PyF :=
  match coerceDuration v with
  | some n => if n.leZero then .error "Missing duration_minutes" else .ok n.toFloat
  | none => .error "Missing duration_minutes"

/-- Quadrant coercion (llm.py:85-89): strings pass through int(), ints (and
bools, an int subtype) pass, floats and the rest fail the isinstance check. -/
def coerceQuadrant (v : Option Json) : Option ℤ :=
  match v with
  | some (.jstr s) => pyIntOfString s
  | some (.jint n) => some n
  | some (.jbool b) => some (if b then 1 else 0)
  | _ => none

/-- Quadrant validation (llm.py:90-91): the value must be one of 1..4. -/
def normQuadrant (v : Option Json) : Except String ℤ :=
  match coerceQuadrant v with
  | some q => if q = 1 ∨ q = 2 ∨ q = 3 ∨ q = 4 then .ok q
      else .error "Missing quadrant"
  | none => .error "Missing quadrant"

/-- Python str.split(",") on character lists: split at every comma, keeping
empty groups. -/
def splitCommaL : List Char → List (List Char)
  | [] => [[]]
  | c :: rest =>
      match splitCommaL rest with
      | [] => [[]]
      | g :: gs => if c = ',' then [] :: g :: gs else (c :: g) :: gs

/-- Python str.split(","). -/
def splitComma (s : String) : List String := (splitCommaL s.data).map String.mk

/-- Shared tail of tags normalization (llm.py:95-101): drop blank entries;
an empty result normalizes to absent. -/
def tagsFromList (xs : List String) : Option (List String) :=
  match xs.filter (· ≠ "") with
  | [] => none
  | l => some l

/-- Tags normalization (llm.py:92-101): None stays absent; a list is
element-wise stringified and stripped with blanks dropped; anything else is
stringified and split on commas; an empty result normalizes to absent. -/
def normTags (v : Option Json) : Option (List String) :=
  match v with
  | none => none
  | some .null => none
  | some (.jarr xs) => tagsFromList (xs.map (fun t => pyStrip (pyStr t)))
  | some other => tagsFromList ((splitComma (pyStr other)).map pyStrip)

/-- When handling (llm.py:102): kept only if a non-blank string; the draft
stores the original (unstripped) text. -/
def normWhen (v : Option Json) : Option String :=
  match v with
  | some (.jstr s) => if pyStrip s = "" then none else some s
  | _ => none

/-- normalize_activity from bot/llm.py lines 70-109: reads description (desc
alias via Python or, so falsy values fall through), duration_minutes
(duration alias), quadrant, tags, when, validating in that order. -/
def normalize_activity (payload : List (String × Json)) : Except String ActivityData :=
  match normDescription (pyOr (getKey payload "description") (getKey payload "desc")) with
  | .error e => .error e
  | .ok d =>
      match normDuration (pyOr (getKey payload "duration_minutes")
          (getKey payload "duration")) with
      | .error e => .error e
      | .ok f =>
          match normQuadrant (getKey payload "quadrant") with
          | .error e => .error e
          | .ok q =>
              .ok ⟨d, f, q, normTags (getKey payload "tags"),
                normWhen (getKey payload "when")⟩

/-- The error taxonomy raised by normalize_activities: the two control
signals (NotEventsError, UnclearEventError) and plain ValueError. -/
inductive NormErr where
  | notEvents (msg : String)
  | unclearEvent (msg : String)
  | valueError (msg : String)
deriving DecidableEq, Repr

/-- The error discriminator of a payload object: its error field when that
field is a string (Python == against a string literal is false for any
non-equal or non-string value). -/
def errTag (fields : List (String × Json)) : Option String :=
  match getKey fields "error" with
  | some (.jstr s) => some s
  | _ => none

/-- The message carried by a control signal (llm.py:115-119,122-127): the
payload message if it is a non-blank string, else the given default. -/
def msgOrDefault (fields : List (String × Json)) (dflt : String) : String :=
  match getKey fields "message" with
  | some (.jstr m) => if pyStrip m = "" then dflt else m
  | _ => dflt

/-- The element-wise loop of normalize_activities (llm.py:133-137): each
entry must be an object and is normalized in order; the first failure
propagates. -/
def normalizeItems : List Json → Except NormErr (List ActivityData)
  | [] => .ok []
  | item :: rest =>
      match item with
      | .jobj fs =>
          match normalize_activity fs with
          | .error e => .error (.valueError e)
          | .ok a => (normalizeItems rest).map (a :: ·)
      | _ => .error (.valueError "Activity entries must be objects")

/-- normalize_activities from bot/llm.py lines 112-140: an object with error
notEvents or unclearEvent is a control signal; any other object is a
one-element list; a list is normalized element-wise; an empty result or a
non-object non-list payload is a ValueError. -/
def normalize_activities (payload : Json) : Except NormErr (List ActivityData) :=
  match payload with
  | .jobj fs =>
      if errTag fs = some "notEvents" then
        .error (.notEvents (msgOrDefault fs "Not a check-in."))
      else if errTag fs = some "unclearEvent" then
        .error (.unclearEvent (msgOrDefault fs
          "Please clarify what you did, how long it took, and the quadrant."))
      else
        match normalizeItems [Json.jobj fs] with
        | .error e => .error e
        | .ok [] => .error (.valueError "No activities found")
        | .ok l => .ok l
  | .jarr xs =>
      match normalizeItems xs with
      | .error e => .error e
      | .ok [] => .error (.valueError "No activities found")
      | .ok l => .ok l
  | _ => .error (.valueError "LLM response did not include activity list")

/-- C5: a single object whose error field is notEvents raises the
not-an-activity signal carrying the payload message, or the default
acknowledgement when the message is absent or blank; an unclearEvent object
raises the ambiguity signal with its default clarification request; in both
cases the result is an error, so no draft is produced. -/
theorem c5_control_signals (fs : List (String × Json))
    (hm : getKey fs "message" = none ∨ ∃ m, getKey fs "message" = some (.jstr m)) :
    (errTag fs = some "notEvents" →
      ∃ m, normalize_activities (.jobj fs) = .error (.notEvents m) ∧
        ((∃ s, getKey fs "message" = some (.jstr s) ∧ pyStrip s ≠ "" ∧ m = s) ∨
          (m = "Not a check-in." ∧
            (getKey fs "message" = none ∨
              ∃ s, getKey fs "message" = some (.jstr s) ∧ pyStrip s = ""))))
    ∧ (errTag fs = some "unclearEvent" →
      ∃ m, normalize_activities (.jobj fs) = .error (.unclearEvent m) ∧
        ((∃ s, getKey fs "message" = some (.jstr s) ∧ pyStrip s ≠ "" ∧ m = s) ∨
          (m = "Please clarify what you did, how long it took, and the quadrant." ∧
            (getKey fs "message" = none ∨
              ∃ s, getKey fs "message" = some (.jstr s) ∧ pyStrip s = "")))) := by
  constructor
  · intro he
    refine ⟨msgOrDefault fs "Not a check-in.", ?_, ?_⟩
    · simp [normalize_activities, he]
    · rcases hm with h | ⟨m, h⟩
      · exact Or.inr ⟨by simp [msgOrDefault, h], Or.inl h⟩
      · by_cases hb : pyStrip m = ""
        · exact Or.inr ⟨by simp [msgOrDefault, h, hb], Or.inr ⟨m, h, hb⟩⟩
        · exact Or.inl ⟨m, h, hb, by simp [msgOrDefault, h, hb]⟩
  · intro he
    have hne : ¬(errTag fs = some "notEvents") := by simp [he]
    refine ⟨msgOrDefault fs
      "Please clarify what you did, how long it took, and the quadrant.", ?_, ?_⟩
    · simp [normalize_activities, he, hne]
    · rcases hm with h | ⟨m, h⟩
      · exact Or.inr ⟨by simp [msgOrDefault, h], Or.inl h⟩
      · by_cases hb : pyStrip m = ""
        · exact Or.inr ⟨by simp [msgOrDefault, h, hb], Or.inr ⟨m, h, hb⟩⟩
        · exact Or.inl ⟨m, h, hb, by simp [msgOrDefault, h, hb]⟩

/-- C5 witness: the two concrete control payloads of the spec. -/
theorem c5_control_signals_witness :
    normalize_activities (.jobj [("error", .jstr "notEvents"),
      ("message", .jstr "Thanks!")]) = .error (.notEvents "Thanks!")
    ∧ normalize_activities (.jobj [("error", .jstr "unclearEvent")])
      = .error (.unclearEvent
        "Please clarify what you did, how long it took, and the quadrant.") := by
  constructor
  · obtain ⟨m, hm, hc⟩ := (c5_control_signals
      [("error", .jstr "notEvents"), ("message", .jstr "Thanks!")]
      (Or.inr ⟨"Thanks!", rfl⟩)).1 (by decide)
    rcases hc with ⟨s, hs, _, rfl⟩ | ⟨rfl, h | ⟨s, hs, hb⟩⟩
    · cases Option.some.inj hs
      exact hm
    · exact Option.noConfusion h
    · cases Json.jstr.inj (Option.some.inj hs)
      exact absurd hb (by decide)
  · obtain ⟨m, hm, hc⟩ := (c5_control_signals
      [("error", .jstr "unclearEvent")] (Or.inl rfl)).2 (by decide)
    rcases hc with ⟨s, hs, _, rfl⟩ | ⟨rfl, _⟩
    · exact Option.noConfusion hs
    · exact hm

theorem normDescription_ok (v : Option Json) (d : String)
    (h : normDescription v = .ok d) : pyStrip d = d ∧ d ≠ "" := by
  match v with
  | none | some .null | some (.jbool _) | some (.jint _) | some (.jfloat _)
  | some (.jarr _) | some (.jobj _) => exact Except.noConfusion h
  | some (.jstr s) =>
      have h2 : (if pyStrip s = "" then (Except.error "Missing description" :
          Except String String) else .ok (pyStrip s)) = .ok d := h
      by_cases hb : pyStrip s = ""
      · rw [if_pos hb] at h2; exact Except.noConfusion h2
      · rw [if_neg hb] at h2
        cases Except.ok.inj h2
        exact ⟨pyStrip_idem s, hb⟩

theorem normDuration_ok (v : Option Json) (f : PyF)
    (h : normDuration v = .ok f) : (PyNum.pfloat f).leZero = false := by
  rcases hc : coerceDuration v with _ | n
  · simp only [normDuration, hc] at h
    exact Except.noConfusion h
  · simp only [normDuration, hc] at h
    by_cases hz : n.leZero
    · rw [if_pos hz] at h; exact Except.noConfusion h
    · rw [if_neg hz] at h
      cases Except.ok.inj h
      match n with
      | .pint k =>
          have hk : ¬(k ≤ 0) := by simpa [PyNum.leZero] using hz
          simp [PyNum.toFloat, PyNum.leZero]
          omega
      | .pfloat g => simpa [PyNum.toFloat, PyNum.leZero] using hz

theorem normQuadrant_ok (v : Option Json) (q : ℤ)
    (h : normQuadrant v = .ok q) : q = 1 ∨ q = 2 ∨ q = 3 ∨ q = 4 := by
  rcases hc : coerceQuadrant v with _ | q0
  · simp only [normQuadrant, hc] at h
    exact Except.noConfusion h
  · simp only [normQuadrant, hc] at h
    by_cases hm : q0 = 1 ∨ q0 = 2 ∨ q0 = 3 ∨ q0 = 4
    · rw [if_pos hm] at h
      cases Except.ok.inj h
      exact hm
    · rw [if_neg hm] at h; exact Except.noConfusion h

theorem tagsFromList_facts (xs : List String) (l : List String)
    (h : tagsFromList xs = some l) (hx : ∀ s ∈ xs, pyStrip s = s) :
    l ≠ [] ∧ ∀ t ∈ l, pyStrip t = t ∧ t ≠ "" := by
  rcases hfl : xs.filter (· ≠ "") with _ | ⟨a, rest⟩
  · simp only [tagsFromList, hfl] at h
    exact Option.noConfusion h
  · simp only [tagsFromList, hfl] at h
    injection h with h2
    subst h2
    refine ⟨by simp, ?_⟩
    intro t ht
    rw [← hfl] at ht
    obtain ⟨hmem, hne⟩ := List.mem_filter.mp ht
    exact ⟨hx t hmem, by simpa using hne⟩

theorem normTags_facts (v : Option Json) (l : List String)
    (h : normTags v = some l) :
    l ≠ [] ∧ ∀ t ∈ l, pyStrip t = t ∧ t ≠ "" := by
  have gen : ∀ ys : List String, tagsFromList (ys.map pyStrip) = some l →
      l ≠ [] ∧ ∀ t ∈ l, pyStrip t = t ∧ t ≠ "" := by
    intro ys hy
    refine tagsFromList_facts _ _ hy ?_
    intro s hs
    obtain ⟨x, _, rfl⟩ := List.mem_map.mp hs
    exact pyStrip_idem x
  match v with
  | none | some .null => exact Option.noConfusion h
  | some (.jarr xs) =>
      refine tagsFromList_facts _ _ h ?_
      intro s hs
      obtain ⟨x, _, rfl⟩ := List.mem_map.mp hs
      exact pyStrip_idem (pyStr x)
  | some (.jbool b) => exact gen _ h
  | some (.jint n) => exact gen _ h
  | some (.jfloat f) => exact gen _ h
  | some (.jstr s) => exact gen _ h
  | some (.jobj fs) => exact gen _ h

theorem normWhen_fact (v : Option Json) (s : String)
    (h : normWhen v = some s) : pyStrip s ≠ "" := by
  match v with
  | none | some .null | some (.jbool _) | some (.jint _) | some (.jfloat _)
  | some (.jarr _) | some (.jobj _) => exact Option.noConfusion h
  | some (.jstr s0) =>
      have h2 : (if pyStrip s0 = "" then (none : Option String) else some s0) = some s := h
      by_cases hb : pyStrip s0 = ""
      · rw [if_pos hb] at h2; exact Option.noConfusion h2
      · rw [if_neg hb] at h2
        cases Option.some.inj h2
        exact hb

/-- The dictionary whose values are the fields of an already-normalized
draft, the input of the second normalizeOne pass in claim C9.  Absent
optional fields are carried as null, which payload.get reads back the same
way as a missing key. -/
def draftToPayload (d : ActivityData) : List (String × Json) :=
  [("description", .jstr d.description),
   ("duration_minutes", .jfloat d.duration_minutes),
   ("quadrant", .jint d.quadrant),
   ("tags", match d.tags with | none => Json.null | some l => .jarr (l.map .jstr)),
   ("when", match d.when with | none => Json.null | some s => .jstr s)]

/-- C9: normalize_activity is idempotent: whenever it succeeds, running it
again on a payload holding the produced draft's own field values succeeds
and returns an equal draft. -/
theorem c9_normalize_idempotent (p : List (String × Json)) (d : ActivityData)
    (h : normalize_activity p = .ok d) :
    normalize_activity (draftToPayload d) = .ok d := by
  rcases hd : normDescription (pyOr (getKey p "description") (getKey p "desc"))
      with e | de
  · simp only [normalize_activity, hd] at h
    exact Except.noConfusion h
  rcases hf : normDuration (pyOr (getKey p "duration_minutes")
      (getKey p "duration")) with e | f
  · simp only [normalize_activity, hd, hf] at h
    exact Except.noConfusion h
  rcases hq : normQuadrant (getKey p "quadrant") with e | q
  · simp only [normalize_activity, hd, hf, hq] at h
    exact Except.noConfusion h
  simp only [normalize_activity, hd, hf, hq] at h
  obtain ⟨hstr, hne⟩ := normDescription_ok _ _ hd
  have hzero := normDuration_ok _ _ hf
  have hquad := normQuadrant_ok _ _ hq
  cases h
  have k1 : getKey (draftToPayload ⟨de, f, q, normTags (getKey p "tags"),
      normWhen (getKey p "when")⟩) "description" = some (.jstr de) := rfl
  have k1b : getKey (draftToPayload ⟨de, f, q, normTags (getKey p "tags"),
      normWhen (getKey p "when")⟩) "desc" = none := rfl
  have k2 : getKey (draftToPayload ⟨de, f, q, normTags (getKey p "tags"),
      normWhen (getKey p "when")⟩) "duration_minutes" = some (.jfloat f) := rfl
  have k2b : getKey (draftToPayload ⟨de, f, q, normTags (getKey p "tags"),
      normWhen (getKey p "when")⟩) "duration" = none := rfl
  have k3 : getKey (draftToPayload ⟨de, f, q, normTags (getKey p "tags"),
      normWhen (getKey p "when")⟩) "quadrant" = some (.jint q) := rfl
  have k4 : getKey (draftToPayload ⟨de, f, q, normTags (getKey p "tags"),
      normWhen (getKey p "when")⟩) "tags" =
      some (match normTags (getKey p "tags") with
        | none => Json.null | some l => .jarr (l.map .jstr)) := rfl
  have k5 : getKey (draftToPayload ⟨de, f, q, normTags (getKey p "tags"),
      normWhen (getKey p "when")⟩) "when" =
      some (match normWhen (getKey p "when") with
        | none => Json.null | some s => .jstr s) := rfl
  have e1 : pyOr (some (Json.jstr de)) none = some (.jstr de) := by
    simp [pyOr, truthy, hne]
  have e2 : pyOr (some (Json.jfloat f)) none = some (.jfloat f) := by
    match f with
    | .fin q0 =>
        have : ¬(q0 ≤ 0) := by simpa [PyNum.leZero] using hzero
        have : q0 ≠ 0 := by intro hh; exact this (le_of_eq hh)
        simp [pyOr, truthy, this]
    | .pinf => simp [pyOr, truthy]
    | .nan => simp [pyOr, truthy]
    | .ninf => simp [PyNum.leZero] at hzero
  have n1 : normDescription (some (.jstr de)) = .ok de := by
    simp [normDescription, hstr, hne]
  have n2 : normDuration (some (.jfloat f)) = .ok f := by
    simp only [normDuration, coerceDuration]
    rw [if_neg (by simp [hzero])]
    rfl
  have n3 : normQuadrant (some (.jint q)) = .ok q := by
    simp [normQuadrant, coerceQuadrant, hquad]
  have n4 : normTags (some (match normTags (getKey p "tags") with
      | none => Json.null | some l => .jarr (l.map .jstr))) =
      normTags (getKey p "tags") := by
    rcases ht : normTags (getKey p "tags") with _ | l
    · rfl
    · obtain ⟨hlne, hall⟩ := normTags_facts _ _ ht
      have hmm : (l.map Json.jstr).map (fun t => pyStrip (pyStr t)) = l := by
        rw [List.map_map]
        have hcg : ∀ t ∈ l, (fun t => pyStrip (pyStr t)) (Json.jstr t) = t := by
          intro t htl
          exact (hall t htl).1
        calc l.map ((fun t => pyStrip (pyStr t)) ∘ Json.jstr)
            = l.map id := List.map_congr_left hcg
          _ = l := List.map_id l
      have hfil : l.filter (· ≠ "") = l :=
        List.filter_eq_self.mpr (fun a ha => by simp [(hall a ha).2])
      show tagsFromList ((l.map Json.jstr).map (fun t => pyStrip (pyStr t)))
          = some l
      rw [hmm]
      simp only [tagsFromList, hfil]
  have n5 : normWhen (some (match normWhen (getKey p "when") with
      | none => Json.null | some s => .jstr s)) =
      normWhen (getKey p "when") := by
    rcases hw : normWhen (getKey p "when") with _ | s
    · rfl
    · have := normWhen_fact _ _ hw
      simp [normWhen, this]
  simp only [normalize_activity, k1, k1b, k2, k2b, k3, k4, k5, e1, e2, n1, n2,
    n3, n4, n5]

/-- C9 witness: the theorem applied to a concrete payload with string-coded
number fields and a comma-separated tag string. -/
theorem c9_normalize_idempotent_witness :
    normalize_activity (draftToPayload
      ⟨"Deep work", .fin 45, 2, some ["work", "focus"], some "2024-01-01 10:00"⟩)
    = .ok ⟨"Deep work", .fin 45, 2, some ["work", "focus"], some "2024-01-01 10:00"⟩ :=
  c9_normalize_idempotent
    [("description", .jstr " Deep work "), ("duration", .jstr "45"),
     ("quadrant", .jstr "2"), ("tags", .jstr "work, focus"),
     ("when", .jstr "2024-01-01 10:00")]
    ⟨"Deep work", .fin 45, 2, some ["work", "focus"], some "2024-01-01 10:00"⟩
    (by rfl)

/-- Proleptic-Gregorian leap-year test, as used by Python datetime. -/
def isLeap (y : ℕ) : Bool := (y % 4 = 0 && y % 100 ≠ 0) || y % 400 = 0

/-- Length of a month. -/
def daysInMonth (y m : ℕ) : ℕ :=
  if m = 2 then (if isLeap y then 29 else 28)
  else if m = 4 || m = 6 || m = 9 || m = 11 then 30 else 31

/-- Days contained in the years 1..y-1. -/
def daysBeforeYear (y : ℕ) : ℕ :=
  (y - 1) * 365 + (y - 1) / 4 - (y - 1) / 100 + (y - 1) / 400

/-- Days contained in the months before month m of year y. -/
def daysBeforeMonth (y m : ℕ) : ℕ :=
  (List.range (m - 1)).foldl (fun acc i => acc + daysInMonth y (i + 1)) 0

/-- Minutes since 0001-01-01 00:00 of a calendar datetime; seconds (with
fraction) enter as a rational. -/
def toMin (y m d hh mm : ℕ) (sec : ℚ) : ℚ :=
  (((((daysBeforeYear y + daysBeforeMonth y m + (d - 1)) * 24 + hh) * 60 + mm : ℕ) : ℚ))
    + sec / 60

/-- Calendar validity as enforced by the datetime constructor. -/
def validYMD (y m d : ℕ) : Bool :=
  1 ≤ y && y ≤ 9999 && 1 ≤ m && m ≤ 12 && 1 ≤ d && d ≤ daysInMonth y m

/-- Numeric value of an ASCII digit. -/
def digVal (c : Char) : ℕ := c.toNat - 48

/-- Exactly four digits (the strptime %Y field and the ISO year). -/
def p4d : List Char → Option (ℕ × List Char)
  | a :: b :: c :: d :: rest =>
      if a.isDigit && b.isDigit && c.isDigit && d.isDigit then
        some (((digVal a * 10 + digVal b) * 10 + digVal c) * 10 + digVal d, rest)
      else none
  | _ => none

/-- Exactly two digits (ISO month, day, hour, minute, second fields). -/
def p2d : List Char → Option (ℕ × List Char)
  | a :: b :: rest =>
      if a.isDigit && b.isDigit then some (digVal a * 10 + digVal b, rest)
      else none
  | _ => none

/-- A one-or-two digit strptime field constrained to lo..hi.  The two-digit
reading is preferred when in range, matching the regex alternation CPython
compiles for %m, %d, %H and %M: in the formats used here every such field is
followed by a non-digit literal or the end of input, so regex backtracking
from a valid two-digit match can never succeed and local greed is
equivalent. -/
def pField (lo hi : ℕ) : List Char → Option (ℕ × List Char)
  | a :: b :: rest =>
      if a.isDigit && b.isDigit && lo ≤ digVal a * 10 + digVal b
          && digVal a * 10 + digVal b ≤ hi then
        some (digVal a * 10 + digVal b, rest)
      else if a.isDigit && lo ≤ digVal a && digVal a ≤ hi then
        some (digVal a, b :: rest)
      else none
  | [a] =>
      if a.isDigit && lo ≤ digVal a && digVal a ≤ hi then some (digVal a, [])
      else none
  | [] => none

/-- One literal character. -/
def pLit (c : Char) : List Char → Option (List Char)
  | d :: rest => if d = c then some rest else none
  | [] => none

/-- One-or-more whitespace characters (strptime compiles literal whitespace
in the format to a one-or-more whitespace match). -/
def pWs : List Char → Option (List Char)
  | c :: rest => if pyIsSpace c then some (rest.dropWhile pyIsSpace) else none
  | [] => none

/-- strptime with format string %Y-%m-%d %H:%M (core.py:49), including the
date-validity check the datetime constructor performs. -/
def strptimeYmdHm (s : String) : Option (ℕ × ℕ × ℕ × ℕ × ℕ) := do
  let (y, r1) ← p4d s.data
  let r2 ← pLit '-' r1
  let (m, r3) ← pField 1 12 r2
  let r4 ← pLit '-' r3
  let (d, r5) ← pField 1 31 r4
  let r6 ← pWs r5
  let (hh, r7) ← pField 0 23 r6
  let r8 ← pLit ':' r7
  let (mm, r9) ← pField 0 59 r8
  if r9 = [] && validYMD y m d then some (y, m, d, hh, mm) else none

/-- strptime with format string %Y-%m-%d (core.py:49). -/
def strptimeYmd (s : String) : Option (ℕ × ℕ × ℕ) := do
  let (y, r1) ← p4d s.data
  let r2 ← pLit '-' r1
  let (m, r3) ← pField 1 12 r2
  let r4 ← pLit '-' r3
  let (d, r5) ← pField 1 31 r4
  if r5 = [] && validYMD y m d then some (y, m, d) else none

/-- strptime with format string %H:%M (core.py:49). -/
def strptimeHm (s : String) : Option (ℕ × ℕ) := do
  let (hh, r1) ← pField 0 23 s.data
  let r2 ← pLit ':' r1
  let (mm, r3) ← pField 0 59 r2
  if r3 = [] then some (hh, mm) else none

/-- ISO date part: YYYY-MM-DD or the basic YYYYMMDD (week dates, a rarely
used 3.11 extension, are not modelled). -/
def parseIsoDate (l : List Char) : Option (ℕ × ℕ × ℕ × List Char) := do
  let (y, r) ← p4d l
  match r with
  | '-' :: r2 => do
      let (m, r3) ← p2d r2
      let r4 ← pLit '-' r3
      let (d, r5) ← p2d r4
      some (y, m, d, r5)
  | _ => do
      let (m, r2) ← p2d r
      let (d, r3) ← p2d r2
      some (y, m, d, r3)

/-- Fractional seconds: a point or comma followed by one or more digits. -/
def parseFrac : List Char → Option (ℚ × List Char)
  | c :: rest =>
      if c = '.' || c = ',' then
        match rest.takeWhile Char.isDigit with
        | [] => none
        | ds => some (((ds.foldl (fun acc d => acc * 10 + digVal d) 0 : ℕ) : ℚ)
            / ((10 : ℚ) ^ ds.length), rest.dropWhile Char.isDigit)
      else none
  | [] => none

/-- ISO time part: HH[:MM[:SS[.f+]]] or the basic HH[MM[SS[.f+]]]; returns
hour, minute and seconds-with-fraction. -/
def parseIsoTime (l : List Char) : Option (ℕ × ℕ × ℚ × List Char) := do
  let (hh, r1) ← p2d l
  match r1 with
  | ':' :: r2 => do
      let (mm, r3) ← p2d r2
      match r3 with
      | ':' :: r4 => do
          let (ss, r5) ← p2d r4
          match parseFrac r5 with
          | some (fr, r6) => some (hh, mm, (ss : ℚ) + fr, r6)
          | none => some (hh, mm, (ss : ℚ), r5)
      | _ => some (hh, mm, 0, r3)
  | _ =>
      match p2d r1 with
      | some (mm, r3) =>
          match p2d r3 with
          | some (ss, r4) =>
              match parseFrac r4 with
              | some (fr, r5) => some (hh, mm, (ss : ℚ) + fr, r5)
              | none => some (hh, mm, (ss : ℚ), r4)
          | none => some (hh, mm, 0, r3)
      | none => some (hh, 0, 0, r1)

/-- ISO timezone suffix: Z, or a signed HH[:MM[:SS]] / HHMM offset.  The
offset is validated and discarded: the embedding keeps the wall-clock value,
which is all the resolution-order claim observes. -/
def parseIsoTz : List Char → Option (List Char)
  | [] => some []
  | 'Z' :: rest => some rest
  | 'z' :: rest => some rest
  | c :: rest =>
      if c = '+' || c = '-' then do
        let (oh, r1) ← p2d rest
        if oh ≤ 23 then
          match r1 with
          | ':' :: r2 => do
              let (om, r3) ← p2d r2
              if om ≤ 59 then
                match r3 with
                | ':' :: r4 => do
                    let (os, r5) ← p2d r4
                    if os ≤ 59 then some r5 else none
                | _ => some r3
              else none
          | _ =>
              match p2d r1 with
              | some (om, r3) => if om ≤ 59 then some r3 else none
              | none => some r1
        else none
      else none

/-- datetime.fromisoformat (core.py:46) for the date[sep]time[tz] core of the
3.11+ grammar: extended or basic date, any single separator character,
optional time with fractional seconds, optional timezone; range-validated.
Returns minutes since the epoch of toMin. -/
def pyFromIsoformat (s : String) : Option ℚ := do
  let (y, m, d, rest) ← parseIsoDate s.data
  if validYMD y m d then
    match rest with
    | [] => some (toMin y m d 0 0 0)
    | _ :: tr => do
        let (hh, mm, sec, r) ← parseIsoTime tr
        let r2 ← parseIsoTz r
        if r2 = [] && hh ≤ 23 && mm ≤ 59 && sec < 60 then
          some (toMin y m d hh mm sec)
        else none
  else none

/-- The strptime fallback loop of parse_activity_timestamp (core.py:49-57):
the three formats in order, combining a bare %H:%M with the current date as
the source does via datetime.combine(today, ...). -/
def tryFormats (now : ℚ) (w : String) : Option ℚ :=
  match strptimeYmdHm w with
  | some (y, m, d, hh, mm) => some (toMin y m d hh mm 0)
  | none =>
      match strptimeYmd w with
      | some (y, m, d) => some (toMin y m d 0 0 0)
      | none =>
          match strptimeHm w with
          | some (hh, mm) => some (((⌊now / 1440⌋ : ℤ) : ℚ) * 1440
              + (hh * 60 + mm : ℕ))
          | none => none

/-- parse_activity_timestamp from track/core.py lines 42-60: falsy when
returns the current time; otherwise fromisoformat is attempted, then the
three strptime formats in order; if all fail, a ValueError names the
offending string and the accepted formats.  The two datetime.now() calls of
the source (core.py:44 and core.py:53) are the single parameter now. -/
def parse_activity_timestamp (now : ℚ) (when : Option String) : Except String ℚ :=
  match when with
  | none => .ok now
  | some w =>
      if w = "" then .ok now
      else
        match pyFromIsoformat w with
        | some t => .ok t
        | none =>
            match tryFormats now w with
            | some t => .ok t
            | none => .error ("Could not parse timestamp \x27" ++ w ++
                "\x27. Try formats: \x272026-01-04 10:30\x27, \x272026-01-04\x27, \x2710:30\x27")

/-- resolve_activity_timestamp from track/core.py lines 63-66: a falsy when
(None or the empty string) or one that strips and lower-cases to the literal
now resolves to currentTime minus the duration in minutes; anything else is
delegated to parse_activity_timestamp. -/
def resolve_activity_timestamp (now : ℚ) (when : Option String) (duration : ℚ) :
    Except String ℚ :=
  match when with
  | none => .ok (now - duration)
  | some w =>
      if w = "" || lowerAscii (pyStrip w) = "now" then .ok (now - duration)
      else parse_activity_timestamp now (some w)

/-- C4 (amended): resolution yields currentTime minus the duration when when
is absent, empty, or case-insensitively strips to the literal now; otherwise
the parsers are attempted in order full ISO, YYYY-MM-DD HH:MM, YYYY-MM-DD,
HH:MM-combined-with-today, the first success winning; if none parse,
resolution fails with an error naming the offending string and the accepted
formats.  (The claim as frozen omits the empty string, which Python
truthiness sends down the now branch; see the counterexample.) -/
theorem c4_resolution_rule (now duration : ℚ) (when : Option String)
    (_hpos : 0 < duration) :
    ((when = none ∨ when = some "" ∨
        (∃ s, when = some s ∧ lowerAscii (pyStrip s) = "now")) →
      resolve_activity_timestamp now when duration = .ok (now - duration))
    ∧ (∀ s, when = some s → s ≠ "" → lowerAscii (pyStrip s) ≠ "now" →
        (∀ t, pyFromIsoformat s = some t →
          resolve_activity_timestamp now when duration = .ok t)
        ∧ (pyFromIsoformat s = none →
          ∀ y m d hh mm, strptimeYmdHm s = some (y, m, d, hh, mm) →
            resolve_activity_timestamp now when duration = .ok (toMin y m d hh mm 0))
        ∧ (pyFromIsoformat s = none → strptimeYmdHm s = none →
          ∀ y m d, strptimeYmd s = some (y, m, d) →
            resolve_activity_timestamp now when duration = .ok (toMin y m d 0 0 0))
        ∧ (pyFromIsoformat s = none → strptimeYmdHm s = none → strptimeYmd s = none →
          ∀ hh mm, strptimeHm s = some (hh, mm) →
            resolve_activity_timestamp now when duration =
              .ok (((⌊now / 1440⌋ : ℤ) : ℚ) * 1440 + (hh * 60 + mm : ℕ)))
        ∧ (pyFromIsoformat s = none → strptimeYmdHm s = none → strptimeYmd s = none →
          strptimeHm s = none →
            resolve_activity_timestamp now when duration =
              .error ("Could not parse timestamp \x27" ++ s ++
                "\x27. Try formats: \x272026-01-04 10:30\x27, \x272026-01-04\x27, \x2710:30\x27"))) := by
  constructor
  · rintro (rfl | rfl | ⟨s, rfl, hnow⟩)
    · rfl
    · rfl
    · by_cases hs : s = ""
      · subst hs; rfl
      · simp [resolve_activity_timestamp, hnow]
  · rintro s rfl hne hnow
    have hbranch : resolve_activity_timestamp now (some s) duration =
        parse_activity_timestamp now (some s) := by
      simp [resolve_activity_timestamp, hne, hnow]
    refine ⟨?_, ?_, ?_, ?_, ?_⟩
    · intro t hiso
      rw [hbranch]
      simp [parse_activity_timestamp, hne, hiso]
    · intro hiso y m d hh mm h1
      rw [hbranch]
      simp [parse_activity_timestamp, hne, hiso, tryFormats, h1]
    · intro hiso h1 y m d h2
      rw [hbranch]
      simp [parse_activity_timestamp, hne, hiso, tryFormats, h1, h2]
    · intro hiso h1 h2 hh mm h3
      rw [hbranch]
      simp [parse_activity_timestamp, hne, hiso, tryFormats, h1, h2, h3]
    · intro hiso h1 h2 h3
      rw [hbranch]
      simp [parse_activity_timestamp, hne, hiso, tryFormats, h1, h2, h3]

/-- C4 counterexample: the empty string is neither absent nor now and fails
all four parsers, yet resolution returns currentTime minus the duration
instead of failing, because core.py:64 tests Python truthiness (not when)
first. -/
theorem c4_counterexample :
    resolve_activity_timestamp 1000000 (some "") 30 = .ok (1000000 - 30)
    ∧ lowerAscii (pyStrip "") ≠ "now"
    ∧ pyFromIsoformat "" = none
    ∧ strptimeYmdHm "" = none
    ∧ strptimeYmd "" = none
    ∧ strptimeHm "" = none :=
  ⟨rfl, by decide, rfl, rfl, rfl, rfl⟩

/-- C4 witness: the now branch on the literal NOW, a first-parser win on a
full ISO string, and a last-parser win on a bare time combined with the
current date. -/
theorem c4_resolution_rule_witness :
    resolve_activity_timestamp 1000000 (some " NOW ") 30 = .ok (1000000 - 30)
    ∧ resolve_activity_timestamp 1000000 (some "2024-01-04 10:30") 30
      = .ok (toMin 2024 1 4 10 30 0)
    ∧ resolve_activity_timestamp 2880 (some "10:30") 30
      = .ok (((⌊(2880 : ℚ) / 1440⌋ : ℤ) : ℚ) * 1440 + (10 * 60 + 30 : ℕ)) := by
  refine ⟨?_, ?_, ?_⟩
  · exact (c4_resolution_rule 1000000 30 (some " NOW ") (by norm_num)).1
      (Or.inr (Or.inr ⟨" NOW ", rfl, by decide⟩))
  · exact ((c4_resolution_rule 1000000 30 (some "2024-01-04 10:30")
      (by norm_num)).2 "2024-01-04 10:30" rfl (by decide) (by decide)).1
      (toMin 2024 1 4 10 30 0) (by rfl)
  · exact (((c4_resolution_rule 2880 30 (some "10:30")
      (by norm_num)).2 "10:30" rfl (by decide) (by decide)).2.2.2.1
      rfl rfl rfl 10 30 rfl)

/-- A persisted activity record: the Activity model of track/core.py lines
14-26.  Its columns are id (integer primary key), entry_timestamp,
activity_timestamp, duration_minutes, quadrant, description and the optional
comma-separated tags; there is no why column. -/
structure Activity where
  id : ℕ
  entry_timestamp : ℚ
  activity_timestamp : ℚ
  duration_minutes : ℚ
  quadrant : ℤ
  description : String
  tags : Option String
deriving DecidableEq, Repr

/-- SQLite LIKE matching of a pattern against a string: percent matches any
run, underscore any single character, and other characters compare
ASCII-case-insensitively (SQLite LIKE is case-insensitive for ASCII by
default; no ESCAPE clause is used by the source). -/
def likeM (p : List Char) (s : List Char) : Bool :=
  match p with
  | [] => s.isEmpty
  | c :: p2 =>
      if c = '%' then s.tails.any (fun s2 => likeM p2 s2)
      else if c = '_' then
        match s with
        | [] => false
        | _ :: s2 => likeM p2 s2
      else
        match s with
        | [] => false
        | d :: s2 => (lowerChar c = lowerChar d) && likeM p2 s2

/-- The applied form Activity.tags.like(f"%term%") of core.py:195,199. -/
def likeContains (term s : String) : Bool :=
  likeM ('%' :: (term.data ++ ['%'])) s.data

/-- A term free of the LIKE wildcard characters; all terms in the claims
are. -/
def noWild (t : String) : Bool := t.data.all (fun c => !(c = '%') && !(c = '_'))

/-- The needle is a leading segment of the haystack. -/
def startsWithSeg : List Char → List Char → Bool
  | [], _ => true
  | _ :: _, [] => false
  | a :: as, b :: bs => (a = b) && startsWithSeg as bs

/-- The needle occurs as a contiguous segment of the haystack. -/
def hasSeg (n : List Char) : List Char → Bool
  | [] => startsWithSeg n []
  | h@(_ :: h2) => startsWithSeg n h || hasSeg n h2

theorem startsWithSeg_iff (n h : List Char) :
    startsWithSeg n h = true ↔ ∃ post, h = n ++ post := by
  induction n generalizing h with
  | nil => simp [startsWithSeg]
  | cons a as ih =>
      cases h with
      | nil => simp [startsWithSeg]
      | cons b bs =>
          simp only [startsWithSeg, Bool.and_eq_true, decide_eq_true_eq, ih,
            List.cons_append, List.cons.injEq]
          constructor
          · rintro ⟨rfl, post, rfl⟩
            exact ⟨post, rfl, rfl⟩
          · rintro ⟨post, rfl, rfl⟩
            exact ⟨rfl, post, rfl⟩

theorem hasSeg_iff (n h : List Char) :
    hasSeg n h = true ↔ ∃ pre post, h = pre ++ n ++ post := by
  induction h with
  | nil =>
      simp only [hasSeg, startsWithSeg_iff]
      constructor
      · rintro ⟨post, hp⟩
        exact ⟨[], post, by simpa using hp⟩
      · rintro ⟨pre, post, hp⟩
        rcases pre with _ | ⟨x, xs⟩
        · exact ⟨post, by simpa using hp⟩
        · exact absurd hp (by simp)
  | cons b bs ih =>
      simp only [hasSeg, Bool.or_eq_true, startsWithSeg_iff, ih]
      constructor
      · rintro (⟨post, hp⟩ | ⟨pre, post, hp⟩)
        · exact ⟨[], post, by simpa using hp⟩
        · exact ⟨b :: pre, post, by simp [hp]⟩
      · rintro ⟨pre, post, hp⟩
        rcases pre with _ | ⟨x, xs⟩
        · exact Or.inl ⟨post, by simpa using hp⟩
        · simp only [List.cons_append, List.cons.injEq] at hp
          exact Or.inr ⟨xs, post, by simp [hp.2, hp.1]⟩

theorem likeM_pct (s : List Char) : likeM ['%'] s = true := by
  simp only [likeM, if_true]
  rw [List.any_eq_true]
  refine ⟨[], ?_, rfl⟩
  induction s with
  | nil => simp [List.tails]
  | cons c s2 ih => exact List.mem_cons_of_mem (c :: s2) ih

theorem likeM_plain (t : List Char) (ht : ∀ c ∈ t, ¬(c = '%') ∧ ¬(c = '_')) :
    ∀ s, likeM (t ++ ['%']) s = startsWithSeg (t.map lowerChar) (s.map lowerChar) := by
  induction t with
  | nil =>
      intro s
      simp [likeM_pct, startsWithSeg]
  | cons c t2 ih =>
      intro s
      obtain ⟨hc1, hc2⟩ := ht c (List.mem_cons_self c t2)
      have ht2 : ∀ x ∈ t2, ¬(x = '%') ∧ ¬(x = '_') := fun x hx =>
        ht x (List.mem_cons_of_mem c hx)
      cases s with
      | nil =>
          rw [List.cons_append, likeM]
          simp [hc1, hc2, startsWithSeg]
      | cons d s2 =>
          rw [List.cons_append, likeM]
          rw [if_neg hc1, if_neg hc2]
          simp only [ih ht2, List.map_cons, startsWithSeg]

theorem likeM_pct_hasSeg (t : List Char) (ht : ∀ c ∈ t, ¬(c = '%') ∧ ¬(c = '_')) :
    ∀ s, likeM ('%' :: (t ++ ['%'])) s = hasSeg (t.map lowerChar) (s.map lowerChar) := by
  intro s
  induction s with
  | nil =>
      simp only [likeM, if_true]
      rw [show ([] : List Char).tails = [[]] from rfl, List.any_cons]
      simp only [List.any_nil, Bool.or_false, likeM_plain t ht]
      simp [hasSeg]
  | cons d s3 ih =>
      simp only [likeM, if_true] at ih ⊢
      rw [show (d :: s3).tails = (d :: s3) :: s3.tails from rfl, List.any_cons,
        ih, likeM_plain t ht]
      simp only [List.map_cons, hasSeg]

theorem likeContains_iff (term s : String) (hw : noWild term = true) :
    likeContains term s = true ↔
      ∃ pre post, s.data.map lowerChar =
        pre ++ term.data.map lowerChar ++ post := by
  have ht : ∀ c ∈ term.data, ¬(c = '%') ∧ ¬(c = '_') := by
    intro c hc
    have h2 := (List.all_eq_true.mp hw) c hc
    simp only [Bool.and_eq_true, Bool.not_eq_true] at h2
    exact ⟨by simpa using h2.1, by simpa using h2.2⟩
  unfold likeContains
  rw [likeM_pct_hasSeg term.data ht, hasSeg_iff]

/-- Declarative reading of SQLite LIKE containment, written from the spec's
description of the matching (simple pattern matching over the text): percent
stands for some, possibly empty, run of characters, underscore for exactly
one character, and any other pattern character for one text character equal
to it up to ASCII case.  Stated with existentials, independently of the
backtracking matcher likeM, to compare the two. -/
def likeSpec : List Char → List Char → Prop
  | [], s => s = []
  | c :: p, s =>
      if c = '%' then ∃ pre suf, s = pre ++ suf ∧ likeSpec p suf
      else if c = '_' then ∃ d s2, s = d :: s2 ∧ likeSpec p s2
      else ∃ d s2, s = d :: s2 ∧ lowerChar c = lowerChar d ∧ likeSpec p s2

theorem likeM_iff_likeSpec (p : List Char) :
    ∀ s, likeM p s = true ↔ likeSpec p s := by
  induction p with
  | nil =>
      intro s
      simp only [likeM, likeSpec, List.isEmpty_iff]
  | cons c p2 ih =>
      intro s
      by_cases hc : c = '%'
      · subst hc
        simp only [likeM, likeSpec, if_true]
        rw [List.any_eq_true]
        constructor
        · rintro ⟨t, ht, hm⟩
          obtain ⟨pre, hpre⟩ := List.mem_tails t s |>.mp ht
          exact ⟨pre, t, hpre.symm, (ih t).mp hm⟩
        · rintro ⟨pre, suf, rfl, hs⟩
          exact ⟨suf, (List.mem_tails suf (pre ++ suf)).mpr ⟨pre, rfl⟩,
            (ih suf).mpr hs⟩
      · by_cases hu : c = '_'
        · subst hu
          cases s with
          | nil =>
              simp only [likeM, likeSpec]
              simp
          | cons d s2 =>
              simp only [likeM, likeSpec,
                if_neg (by decide : ¬(('_' : Char) = '%')), if_true]
              rw [ih s2]
              constructor
              · intro hs
                exact ⟨d, s2, rfl, hs⟩
              · rintro ⟨d2, s3, heq, hs⟩
                cases heq
                exact hs
        · cases s with
          | nil =>
              simp only [likeM, likeSpec, if_neg hc, if_neg hu]
              simp
          | cons d s2 =>
              simp only [likeM, likeSpec, if_neg hc, if_neg hu,
                Bool.and_eq_true, decide_eq_true_eq]
              rw [ih s2]
              constructor
              · rintro ⟨hl, hs⟩
                exact ⟨d, s2, rfl, hl, hs⟩
              · rintro ⟨d2, s3, heq, hl, hs⟩
                cases heq
                exact ⟨hl, hs⟩

/-- Splitting a character list at every separator character, keeping empty
groups. -/
def splitPredL (pred : Char → Bool) : List Char → List (List Char)
  | [] => [[]]
  | c :: rest =>
      match splitPredL pred rest with
      | [] => [[]]
      | g :: gs => if pred c then [] :: g :: gs else (c :: g) :: gs

/-- Python str.split() with no argument: whitespace-separated words, no
empties. -/
def splitWs (s : String) : List String :=
  ((splitPredL pyIsSpace s.data).map String.mk).filter (· ≠ "")

/-- Tag search terms (core.py:192-195): a falsy tags argument contributes no
terms, otherwise comma-split, stripped, blanks dropped. -/
def tagTerms (tags : Option String) : List String :=
  match tags with
  | none => []
  | some t => if t = "" then [] else ((splitComma t).map pyStrip).filter (· ≠ "")

/-- Description search terms (core.py:196-199): a falsy argument contributes
no terms, otherwise whitespace-split, stripped, blanks dropped. -/
def descTerms (d : Option String) : List String :=
  match d with
  | none => []
  | some t => if t = "" then [] else ((splitWs t).map pyStrip).filter (· ≠ "")

/-- The WHERE clause of search_activities (core.py:201-205): quadrant
equality when a quadrant is given, AND-combined with the OR of all LIKE
filters when any term exists (an SQL NULL tags column matches no LIKE). -/
def rowMatches (tt dt : List String) (q : Option ℤ) (r : Activity) : Bool :=
  (match q with | none => true | some v => decide (r.quadrant = v)) &&
  (if tt.isEmpty && dt.isEmpty then true
   else
     tt.any (fun t => match r.tags with
       | none => false
       | some tg => likeContains t tg)
     || dt.any (fun t => likeContains t r.description))

/-- ORDER BY activity_timestamp DESC.  The embedding sorts stably, fixing
the tie order that SQL leaves unspecified. -/
def tsDesc (a b : Activity) : Prop := b.activity_timestamp ≤ a.activity_timestamp

/-- ORDER BY entry_timestamp DESC. -/
def entryDesc (a b : Activity) : Prop := b.entry_timestamp ≤ a.entry_timestamp

/-- ORDER BY id DESC. -/
def idDesc (a b : Activity) : Prop := b.id ≤ a.id

instance : DecidableRel tsDesc := fun a b =>
  inferInstanceAs (Decidable (b.activity_timestamp ≤ a.activity_timestamp))

instance : IsTotal Activity tsDesc :=
  ⟨fun a b => le_total b.activity_timestamp a.activity_timestamp⟩

instance : IsTrans Activity tsDesc :=
  ⟨fun _ _ _ h1 h2 => le_trans h2 h1⟩

instance : DecidableRel entryDesc := fun a b =>
  inferInstanceAs (Decidable (b.entry_timestamp ≤ a.entry_timestamp))

instance : IsTotal Activity entryDesc :=
  ⟨fun a b => le_total b.entry_timestamp a.entry_timestamp⟩

instance : IsTrans Activity entryDesc :=
  ⟨fun _ _ _ h1 h2 => le_trans h2 h1⟩

instance : DecidableRel idDesc := fun a b =>
  inferInstanceAs (Decidable (b.id ≤ a.id))

instance : IsTotal Activity idDesc := ⟨fun a b => le_total b.id a.id⟩

instance : IsTrans Activity idDesc := ⟨fun _ _ _ h1 h2 => le_trans h2 h1⟩

/-- search_activities from track/core.py lines 188-210: term extraction,
quadrant filter AND or-group filter, ordered by activity_timestamp
descending.  The embedding returns the row sequence the source passes to its
renderer. -/
def search_activities (db : List Activity) (tags d : Option String)
    (q : Option ℤ) : List Activity :=
  List.insertionSort tsDesc (db.filter (rowMatches (tagTerms tags) (descTerms d) q))

/-- fetch_activities from track/core.py lines 138-153: entry-time and
activity-time orders take the first limit rows of their descending sort; any
other sort key takes the first limit rows of the descending id sort and
reverses them. -/
def fetch_activities (db : List Activity) (limit : ℕ) (sortBy : String) :
    List Activity :=
  if sortBy = "added" then (List.insertionSort entryDesc db).take limit
  else if sortBy = "event" then (List.insertionSort tsDesc db).take limit
  else ((List.insertionSort idDesc db).take limit).reverse

theorem rowMatches_iff (tt dt : List String) (q : Option ℤ) (r : Activity) :
    rowMatches tt dt q r = true ↔
      ((∀ v, q = some v → r.quadrant = v)
        ∧ ((tt = [] ∧ dt = []) ∨
          (∃ t ∈ tt, ∃ tg, r.tags = some tg ∧
            likeSpec ('%' :: (t.data ++ ['%'])) tg.data) ∨
          (∃ t ∈ dt, likeSpec ('%' :: (t.data ++ ['%'])) r.description.data))) := by
  have hq : ((match q with
      | none => true
      | some v => decide (r.quadrant = v)) = true) ↔
      (∀ v, q = some v → r.quadrant = v) := by
    cases q with
    | none => simp
    | some v => simp
  unfold rowMatches
  rw [Bool.and_eq_true, hq]
  refine and_congr_right (fun _ => ?_)
  by_cases he : tt.isEmpty && dt.isEmpty
  · rw [if_pos he]
    simp only [Bool.and_eq_true, List.isEmpty_iff] at he
    simp [he.1, he.2]
  · rw [if_neg he]
    rw [Bool.or_eq_true, List.any_eq_true, List.any_eq_true]
    have hne : ¬(tt = [] ∧ dt = []) := by
      rintro ⟨h1, h2⟩
      exact he (by simp [h1, h2])
    constructor
    · rintro (⟨t, htm, hmatch⟩ | ⟨t, htm, hmatch⟩)
      · refine Or.inr (Or.inl ?_)
        cases hrt : r.tags with
        | none => rw [hrt] at hmatch; exact absurd hmatch (by simp)
        | some tg =>
            rw [hrt] at hmatch
            exact ⟨t, htm, tg, rfl,
              (likeM_iff_likeSpec ('%' :: (t.data ++ ['%'])) tg.data).mp hmatch⟩
      · exact Or.inr (Or.inr ⟨t, htm,
          (likeM_iff_likeSpec ('%' :: (t.data ++ ['%'])) r.description.data).mp
            hmatch⟩)
    · rintro (habs | ⟨t, htm, tg, hrt, hsub⟩ | ⟨t, htm, hsub⟩)
      · exact absurd habs hne
      · refine Or.inl ⟨t, htm, ?_⟩
        rw [hrt]
        exact (likeM_iff_likeSpec ('%' :: (t.data ++ ['%'])) tg.data).mpr hsub
      · exact Or.inr ⟨t, htm,
          (likeM_iff_likeSpec ('%' :: (t.data ++ ['%'])) r.description.data).mpr
            hsub⟩

/-- C3 (amended): search returns exactly the stored records satisfying the
quadrant filter (when given) AND the OR-group — at least one tag term
SQLite-LIKE-contained in the tags column or one description term in the
description, where LIKE containment (likeSpec, the declarative reading)
compares ASCII-case-insensitively with percent matching any run and
underscore any single character — except that an empty OR-group (no terms
at all) matches every record; output is ordered by activity_timestamp
descending.  For terms free of the two wildcard characters, the final
conjunct shows LIKE containment is exactly ASCII-case-insensitive substring
containment.  (The frozen claim says case-sensitive substring matching for
all terms; SQLite LIKE folds ASCII case and honours the wildcards, see the
counterexample.) -/
theorem c3_search_characterization (db : List Activity) (tags d : Option String)
    (q : Option ℤ) :
    List.Sorted tsDesc (search_activities db tags d q)
    ∧ (∀ r, r ∈ search_activities db tags d q ↔
        (r ∈ db
          ∧ (∀ v, q = some v → r.quadrant = v)
          ∧ ((tagTerms tags = [] ∧ descTerms d = []) ∨
            (∃ t ∈ tagTerms tags, ∃ tg, r.tags = some tg ∧
              likeSpec ('%' :: (t.data ++ ['%'])) tg.data) ∨
            (∃ t ∈ descTerms d,
              likeSpec ('%' :: (t.data ++ ['%'])) r.description.data))))
    ∧ (∀ t s2 : String, noWild t = true →
        (likeSpec ('%' :: (t.data ++ ['%'])) s2.data ↔
          ∃ pre post, s2.data.map lowerChar =
            pre ++ t.data.map lowerChar ++ post)) := by
  refine ⟨List.sorted_insertionSort tsDesc _, ?_, ?_⟩
  · intro r
    rw [search_activities, (List.perm_insertionSort tsDesc _).mem_iff,
      List.mem_filter, rowMatches_iff]
  · intro t s2 hwild
    rw [← likeM_iff_likeSpec ('%' :: (t.data ++ ['%'])) s2.data]
    exact likeContains_iff t s2 hwild

/-- The record with capitalized tags from the spec search example. -/
def searchRecWork : Activity :=
  ⟨1, 0, 10, 30, 2, "deep work session", some "Work,focus"⟩

/-- The non-matching record from the spec search example. -/
def searchRecHome : Activity := ⟨2, 0, 5, 30, 2, "idle", some "home"⟩

/-- A record whose tags are matched only through the underscore wildcard. -/
def searchRecUnder : Activity := ⟨3, 0, 7, 30, 2, "misc", some "deepXwork"⟩

/-- C3 counterexample: the claimed case-sensitive substring semantics fails
in two independent ways.  Searching tag term work returns the record tagged
Work,focus although work is not a case-sensitive substring of it (SQLite
LIKE folds ASCII case); and searching tag term deep_work returns the record
tagged deepXwork although deep_work is not a substring of it even
case-insensitively (underscore is a LIKE wildcard matching any single
character). -/
theorem c3_search_counterexample :
    (search_activities [searchRecWork, searchRecHome] (some "work") none none
      = [searchRecWork]
    ∧ searchRecWork.tags = some "Work,focus"
    ∧ ¬∃ pre post, ("Work,focus" : String).data
        = pre ++ ("work" : String).data ++ post)
    ∧ (search_activities [searchRecUnder] (some "deep_work") none none
      = [searchRecUnder]
    ∧ searchRecUnder.tags = some "deepXwork"
    ∧ ¬∃ pre post, ("deepXwork" : String).data.map lowerChar
        = pre ++ ("deep_work" : String).data.map lowerChar ++ post) := by
  refine ⟨⟨by decide, rfl, ?_⟩, by decide, rfl, ?_⟩
  · rintro ⟨pre, post, hp⟩
    have h2 := (hasSeg_iff ("work" : String).data
      ("Work,focus" : String).data).mpr ⟨pre, post, hp⟩
    exact absurd h2 (by decide)
  · rintro ⟨pre, post, hp⟩
    have h2 := (hasSeg_iff (("deep_work" : String).data.map lowerChar)
      (("deepXwork" : String).data.map lowerChar)).mpr ⟨pre, post, hp⟩
    exact absurd h2 (by decide)

/-- C3 witness: the amended theorem applied to the spec example — the record
tagged Work,focus is returned for term work, obtained through the
wildcard-free substring conjunct — and to the wildcard example, where the
record tagged deepXwork is returned for term deep_work. -/
theorem c3_search_characterization_witness :
    searchRecWork ∈ search_activities [searchRecWork, searchRecHome]
      (some "work") none none
    ∧ searchRecUnder ∈ search_activities [searchRecUnder]
      (some "deep_work") none none
    ∧ List.Sorted tsDesc (search_activities [searchRecWork, searchRecHome]
      (some "work") none none) := by
  have h := c3_search_characterization [searchRecWork, searchRecHome]
    (some "work") none none
  have h2 := c3_search_characterization [searchRecUnder]
    (some "deep_work") none none
  refine ⟨?_, ?_, h.1⟩
  · refine (h.2.1 searchRecWork).mpr ⟨by simp, fun v hv => Option.noConfusion hv,
      Or.inr (Or.inl ⟨"work", by decide, "Work,focus", rfl, ?_⟩)⟩
    refine (h.2.2 "work" "Work,focus" (by decide)).mpr ?_
    exact (hasSeg_iff (("work" : String).data.map lowerChar)
      (("Work,focus" : String).data.map lowerChar)).mp (by decide)
  · refine (h2.2.1 searchRecUnder).mpr ⟨by simp, fun v hv => Option.noConfusion hv,
      Or.inr (Or.inl ⟨"deep_work", by decide, "deepXwork", rfl, ?_⟩)⟩
    exact (likeM_iff_likeSpec ('%' :: (("deep_work" : String).data ++ ['%']))
      ("deepXwork" : String).data).mp (by decide)

theorem mem_take_sorted_strict (key : Activity → ℕ) (l : List Activity) :
    ∀ (N : ℕ) (x : Activity), List.Sorted (fun a b => key b < key a) l →
      (x ∈ l.take N ↔ x ∈ l ∧ l.countP (fun y => decide (key x < key y)) < N) := by
  induction l with
  | nil => intro N x _; simp
  | cons a t ih =>
      intro N x hs
      obtain ⟨ha, ht⟩ := List.sorted_cons.mp hs
      cases N with
      | zero => simp
      | succ n =>
          rw [List.take_succ_cons]
          constructor
          · intro hx
            rcases List.mem_cons.mp hx with rfl | hx2
            · refine ⟨List.mem_cons_self x t, ?_⟩
              rw [List.countP_cons]
              have h0 : t.countP (fun y => decide (key x < key y)) = 0 := by
                rw [List.countP_eq_zero]
                intro y hy
                simp only [decide_eq_true_eq]
                have := ha y hy
                omega
              simp [h0]
            · have hxt : x ∈ t := List.take_subset n t hx2
              obtain ⟨_, hcnt⟩ := (ih n x ht).mp hx2
              refine ⟨List.mem_cons_of_mem a hxt, ?_⟩
              rw [List.countP_cons]
              have hlt : key x < key a := ha x hxt
              simp [hlt]
              omega
          · rintro ⟨hmem, hcnt⟩
            rcases List.mem_cons.mp hmem with rfl | hx2
            · exact List.mem_cons_self x (t.take n)
            · have hlt : key x < key a := ha x hx2
              rw [List.countP_cons] at hcnt
              simp [hlt] at hcnt
              refine List.mem_cons_of_mem a ((ih n x ht).mpr ⟨hx2, ?_⟩)
              omega

/-- C10: with at least one row requested and distinct ids (the primary-key
invariant), the by-id order returns exactly the records with fewer than
limit strictly-larger ids — the newest limit records — in ascending id
order; the entry-time and activity-time orders instead take the first limit
rows of their descending sorts. -/
theorem c10_fetch_newest_ascending (db : List Activity) (N : ℕ) (_hN : 1 ≤ N)
    (hnd : (db.map (fun r => r.id)).Nodup) :
    (List.Sorted (fun a b => a.id < b.id) (fetch_activities db N "id")
      ∧ ∀ r, r ∈ fetch_activities db N "id" ↔
          r ∈ db ∧ db.countP (fun y => decide (r.id < y.id)) < N)
    ∧ fetch_activities db N "added" = (List.insertionSort entryDesc db).take N
    ∧ List.Sorted entryDesc (fetch_activities db N "added")
    ∧ fetch_activities db N "event" = (List.insertionSort tsDesc db).take N
    ∧ List.Sorted tsDesc (fetch_activities db N "event") := by
  have hid : fetch_activities db N "id" =
      ((List.insertionSort idDesc db).take N).reverse := by
    simp [fetch_activities]
  have hadded : fetch_activities db N "added" =
      (List.insertionSort entryDesc db).take N := by
    simp [fetch_activities]
  have hevent : fetch_activities db N "event" =
      (List.insertionSort tsDesc db).take N := by
    simp [fetch_activities]
  have hperm : List.Perm (List.insertionSort idDesc db) db :=
    List.perm_insertionSort idDesc db
  have hsorted : List.Sorted idDesc (List.insertionSort idDesc db) :=
    List.sorted_insertionSort idDesc db
  have hndL : ((List.insertionSort idDesc db).map (fun r => r.id)).Nodup :=
    (List.Perm.nodup_iff (hperm.map (fun r => r.id))).mpr hnd
  have hpair : (List.insertionSort idDesc db).Pairwise (fun a b => a.id ≠ b.id) :=
    List.pairwise_map.mp hndL
  have hstrict : List.Sorted (fun a b => b.id < a.id)
      (List.insertionSort idDesc db) := by
    have hand := List.Pairwise.and hsorted hpair
    exact hand.imp (fun {a b} hab => lt_of_le_of_ne hab.1 (Ne.symm hab.2))
  have htake : List.Pairwise (fun a b => b.id < a.id)
      ((List.insertionSort idDesc db).take N) :=
    List.Pairwise.sublist (List.take_sublist N _) hstrict
  refine ⟨⟨?_, ?_⟩, hadded, ?_, hevent, ?_⟩
  · rw [hid]
    exact List.pairwise_reverse.mpr htake
  · intro r
    rw [hid, List.mem_reverse,
      mem_take_sorted_strict (fun r => r.id) _ N r hstrict, hperm.mem_iff,
      hperm.countP_eq]
  · rw [hadded]
    exact List.Pairwise.sublist (List.take_sublist N _)
      (List.sorted_insertionSort entryDesc db)
  · rw [hevent]
    exact List.Pairwise.sublist (List.take_sublist N _)
      (List.sorted_insertionSort tsDesc db)

/-- The oldest of the three concrete ledger rows used in the C10 witness. -/
def fetchRecOne : Activity := ⟨1, 10, 100, 30, 2, "first", none⟩

/-- The middle row of the C10 witness ledger. -/
def fetchRecTwo : Activity := ⟨2, 20, 50, 30, 2, "second", none⟩

/-- The newest row of the C10 witness ledger. -/
def fetchRecThree : Activity := ⟨3, 30, 80, 30, 2, "third", none⟩

/-- C10 witness: fetching two rows by id from a three-row ledger keeps the
two largest ids and drops the smallest. -/
theorem c10_fetch_newest_ascending_witness :
    fetchRecThree ∈ fetch_activities [fetchRecOne, fetchRecTwo, fetchRecThree] 2 "id"
    ∧ fetchRecOne ∉ fetch_activities [fetchRecOne, fetchRecTwo, fetchRecThree] 2 "id" := by
  have h := c10_fetch_newest_ascending [fetchRecOne, fetchRecTwo, fetchRecThree] 2
    (by decide) (by decide)
  constructor
  · exact (h.1.2 fetchRecThree).mpr ⟨by decide, by decide⟩
  · intro hmem
    have h2 := ((h.1.2 fetchRecOne).mp hmem).2
    exact absurd h2 (by decide)

/-- BotState from bot/state.py lines 8-14: the persisted conversation
state.  last_prompt_at is a timestamp on the rational minute scale. -/
structure BotState where
  chat_id : Option ℤ
  last_prompt_at : Option ℚ
  last_message_id : Option ℤ
  pending_checkin : Option String
  pending_delete_id : Option ℤ
deriving DecidableEq, Repr

/-- An inbound text message as handle_message sees it: the originating chat
(absent when the update carries no effective chat), the message id, and the
text (empty standing for a missing or empty text, bot.py:228). -/
structure Msg where
  chat_id : Option ℤ
  message_id : ℤ
  text : String
deriving DecidableEq, Repr

/-- The observable outcome of one handler run: the replies sent, in order,
and the final conversation state. -/
structure HandlerResult where
  replies : List String
  state : BotState
deriving DecidableEq, Repr

/-- The chat guard of bot.py:236-237: rejected only when a configured chat
id is set and truthy (nonzero) and differs from the message's chat. -/
def chatMismatch (cfgChat : Option ℤ) (c : ℤ) : Bool :=
  match cfgChat with
  | some cc => cc ≠ 0 && c ≠ cc
  | none => false

/-- The idempotency guard of bot.py:239: a message id not strictly greater
than the recorded one is stale. -/
def idStale (last : Option ℤ) (mid : ℤ) : Bool :=
  match last with
  | some n => mid ≤ n
  | none => false

/-- format_activity_log_fields from bot.py lines 70-78: line 74 reads
activity.why, an attribute the track Activity model (core.py:14-26) does not
define, so the call raises AttributeError. -/
def format_activity_log_fields (_r : Activity) : Except Unit String := .error ()

/-- format_delete_prompt from bot.py lines 81-88: line 84 reads
activity.why, an attribute the track Activity model (core.py:14-26) does not
define, so the call raises AttributeError. -/
def format_delete_prompt (_r : Activity) : Except Unit String := .error ()

/-- render_activity_summary from bot.py lines 40-52: line 44 reads
activity.why, a field ActivityData (llm.py:10-16) does not declare, so the
call raises AttributeError. -/
def render_activity_summary (_a : ActivityData) (_ts : ℚ) : Except Unit String :=
  .error ()

/-- The per-draft persist step of bot.py:343-353.  Evaluating the call
arguments reads activity.why, a field ActivityData (llm.py:10-16) does not
declare, so an AttributeError is raised before track.add_activity (which
moreover accepts five parameters, core.py:69-75, while six are passed) is
ever entered; the except clause at bot.py:354-359 catches it.  Hence the
faithful step always fails. -/
def addStepActual (_a : ActivityData) : Except Unit ℚ := .error ()

/-- The success loop of bot.py:341-360 over the extracted drafts,
parameterized by the persist step: a failing persist stops the loop with the
caught logging-failure reply (state untouched, bot.py:354-359); a successful
persist appends a rendered summary line — where the faithful renderer raises
outside any try, modelled as the escaping-exception outcome. -/
def persistLoop (addStep : ActivityData → Except Unit ℚ) :
    List ActivityData → List String → Except Unit (Except String (List String))
  | [], acc => .ok (.ok acc)
  | a :: rest, acc =>
      match addStep a with
      | .error _ =>
          .ok (.error "I parsed it, but logging failed. Check logs for details.")
      | .ok ts =>
          match render_activity_summary a ts with
          | .error _ => .error ()
          | .ok line => persistLoop addStep rest (acc ++ [line])

/-- The delete attempt of bot.py:264-280, parameterized by the outcome of
track.delete_activity: a raised exception yields the generic failure with
the pending id retained; otherwise the pending id is cleared and the success
or not-found reply sent. -/
def deleteStep (deleteRes : Except Unit Bool) (s : BotState) (aid : ℤ) :
    Except Unit HandlerResult :=
  match deleteRes with
  | .error _ => .ok ⟨["Delete failed. Check logs for details."], s⟩
  | .ok true => .ok ⟨["Deleted event ID " ++ toString aid ++ "."],
      { s with pending_delete_id := none }⟩
  | .ok false => .ok ⟨["Event ID " ++ toString aid ++ " was not found."],
      { s with pending_delete_id := none }⟩

/-- The delete-confirmation branch of bot.py:242-307, parameterized by the
outcomes of the two storage calls.  With track/__init__.py as in the source
the name track.fetch_activity is not exported, so the faithful fetch outcome
is an AttributeError, caught by the surrounding try (bot.py:253-258,
293-298); the parameter keeps the branch structure visible and lets the
storage-failure claim quantify over outcomes. -/
def confirmBranch (fetchRes : Except Unit (Option Activity))
    (deleteRes : Except Unit Bool) (s : BotState) (m : Msg) (aid : ℤ) :
    Except Unit HandlerResult :=
  if lowerAscii (pyStrip m.text) = "y" || lowerAscii (pyStrip m.text) = "yes" then
    match fetchRes with
    | .error _ => .ok ⟨["Couldn\x27t load that event. Check logs for details."], s⟩
    | .ok (some r) =>
        match format_activity_log_fields r with
        | .error _ => .error ()
        | .ok _ => deleteStep deleteRes s aid
    | .ok none => deleteStep deleteRes s aid
  else if lowerAscii (pyStrip m.text) = "n" || lowerAscii (pyStrip m.text) = "no" then
    .ok ⟨["Delete cancelled."], { s with pending_delete_id := none }⟩
  else
    match fetchRes with
    | .error _ => .ok ⟨["Couldn\x27t load that event. Check logs for details."], s⟩
    | .ok none => .ok ⟨["Event ID " ++ toString aid ++ " was not found."],
        { s with pending_delete_id := none }⟩
    | .ok (some r) =>
        match format_delete_prompt r with
        | .error _ => .error ()
        | .ok p => .ok ⟨["Please reply yes or no. " ++ p], s⟩

/-- The fresh-check-in branch of bot.py:308-365.  The opaque model call plus
JSON extraction (parse_activities_from_text, llm.py:143-154) enters as an
Except-valued payload: an error stands for any network or extraction
exception, which bot.py:335-339 answers with the generic parse-failure reply
without advancing the message id; a decoded payload is normalized by the
embedded normalize_activities with the three typed outcomes handled exactly
as bot.py:319-339 does.  The clarification prefixing of bot.py:309-310 only
feeds the opaque model call and is not observable here. -/
def checkinBranch (llmPayload : Except Unit Json)
    (addStep : ActivityData → Except Unit ℚ) (s : BotState) (m : Msg) :
    Except Unit HandlerResult :=
  match llmPayload with
  | .error _ => .ok ⟨["I couldn\x27t parse that. Please include what you did, how long, and a quadrant (Q1-4)."], s⟩
  | .ok j =>
      match normalize_activities j with
      | .error (.notEvents msg) => .ok ⟨[msg],
          { s with last_message_id := some m.message_id }⟩
      | .error (.unclearEvent msg) => .ok ⟨[msg],
          { s with
            pending_checkin := some (match s.pending_checkin with
              | some pc =>
                  if pc ≠ "" then pc ++ "\nClarification: " ++ m.text else m.text
              | none => m.text)
            last_message_id := some m.message_id }⟩
      | .error (.valueError _) => .ok ⟨["I couldn\x27t parse that. Please include what you did, how long, and a quadrant (Q1-4)."], s⟩
      | .ok activities =>
          match persistLoop addStep activities [] with
          | .error _ => .error ()
          | .ok (.error msg) => .ok ⟨[msg], s⟩
          | .ok (.ok summaries) =>
              .ok ⟨[String.intercalate "\n" summaries],
                { s with
                  last_prompt_at := none
                  last_message_id := some m.message_id
                  pending_checkin := none }⟩

/-- handle_message from bot/bot.py lines 227-365: empty or chat-mismatched
or stale messages are ignored silently; then the delete-confirmation branch
when a pending delete id is set, else the check-in branch.  The result is ok
with replies and the final state, or error when an exception escapes the
handler (the transport logs it; no reply is sent and no state is saved). -/
def handle_message (cfgChat : Option ℤ)
    (fetchRes : Except Unit (Option Activity)) (deleteRes : Except Unit Bool)
    (llmPayload : Except Unit Json) (addStep : ActivityData → Except Unit ℚ)
    (s : BotState) (m : Msg) : Except Unit HandlerResult :=
  if m.text = "" then .ok ⟨[], s⟩
  else
    match m.chat_id with
    | none => .ok ⟨[], s⟩
    | some c =>
        if chatMismatch cfgChat c then .ok ⟨[], s⟩
        else if idStale s.last_message_id m.message_id then .ok ⟨[], s⟩
        else
          match s.pending_delete_id with
          | some aid => confirmBranch fetchRes deleteRes s m aid
          | none => checkinBranch llmPayload addStep s m

/-- The conversation state used by the C1 evaluation: registered chat, a
pending prompt, message id 10 processed, nothing pending. -/
def c1state : BotState := ⟨some 99, some 500, some 10, none, none⟩

/-- The fresh inbound check-in used by the C1 evaluation. -/
def c1msg : Msg := ⟨some 99, 11, "reviewed the quarterly report for 30 minutes, Q2"⟩

/-- The decoded model payload of the C1 evaluation: one valid draft. -/
def c1payload : Json := .jarr [.jobj
  [("description", .jstr "reviewed the quarterly report"),
   ("duration_minutes", .jint 30), ("quadrant", .jint 2)]]

/-- C1: evaluation of the code at the failing input.  Extraction succeeds
with one valid draft, yet the handler replies with the logging-failure text
and leaves the state untouched: the persist step raises before reaching the
ledger, because bot.py:352 reads activity.why (a field ActivityData,
llm.py:10-16, does not declare) and passes six arguments to the
five-parameter track.add_activity (core.py:69-75).  The claimed
persist/clear/summarize path is unreachable. -/
theorem c1_persist_always_fails :
    normalize_activities c1payload
      = .ok [⟨"reviewed the quarterly report", .fin 30, 2, none, none⟩]
    ∧ handle_message (some 99) (.error ()) (.error ()) (.ok c1payload)
        addStepActual c1state c1msg
      = .ok ⟨["I parsed it, but logging failed. Check logs for details."], c1state⟩ :=
  ⟨rfl, rfl⟩

/-- C6: a message whose id is not strictly greater than the recorded
last_processed_message_id produces no reply and leaves every field of the
state unchanged, for every configuration and every outcome of the external
calls. -/
theorem c6_stale_message_ignored (cfgChat : Option ℤ)
    (fetchRes : Except Unit (Option Activity)) (deleteRes : Except Unit Bool)
    (llmPayload : Except Unit Json) (addStep : ActivityData → Except Unit ℚ)
    (s : BotState) (m : Msg) (n : ℤ)
    (hlast : s.last_message_id = some n) (hle : m.message_id ≤ n) :
    handle_message cfgChat fetchRes deleteRes llmPayload addStep s m
      = .ok ⟨[], s⟩ := by
  obtain ⟨mc, mid, mtext⟩ := m
  simp only [Msg.message_id] at hle
  unfold handle_message
  by_cases htext : mtext = ""
  · simp [htext]
  · rw [if_neg (by simpa using htext)]
    cases mc with
    | none => rfl
    | some c =>
        by_cases hcm : chatMismatch cfgChat c
        · simp [hcm]
        · have hstale : idStale s.last_message_id mid = true := by
            rw [hlast]
            simp [idStale, hle]
          simp [hcm, hstale]

/-- C6 witness: a concrete stale re-delivery is silently dropped. -/
theorem c6_stale_message_ignored_witness :
    handle_message none (.error ()) (.error ()) (.error ()) addStepActual
      ⟨some 1, none, some 5, none, none⟩ ⟨some 1, 5, "hello"⟩
      = .ok ⟨[], ⟨some 1, none, some 5, none, none⟩⟩ :=
  c6_stale_message_ignored none (.error ()) (.error ()) (.error ())
    addStepActual ⟨some 1, none, some 5, none, none⟩ ⟨some 1, 5, "hello"⟩ 5
    rfl (by decide)

theorem handle_message_pending (cfgChat : Option ℤ)
    (fetchRes : Except Unit (Option Activity)) (deleteRes : Except Unit Bool)
    (llmPayload : Except Unit Json) (addStep : ActivityData → Except Unit ℚ)
    (s : BotState) (m : Msg) (aid c : ℤ)
    (hpend : s.pending_delete_id = some aid) (htext : m.text ≠ "")
    (hchat : m.chat_id = some c) (hcm : chatMismatch cfgChat c = false)
    (hfresh : idStale s.last_message_id m.message_id = false) :
    handle_message cfgChat fetchRes deleteRes llmPayload addStep s m
      = confirmBranch fetchRes deleteRes s m aid := by
  unfold handle_message
  rw [if_neg htext, hchat]
  simp only [hcm, Bool.false_eq_true, if_false, hfresh, hpend]

/-- C8: whenever a storage call actually fails while the controller handles
a reply in the delete-confirmation state — the re-fetch raising on any reply
other than n or no, or the delete raising after a fetch that found the
record gone on a yes — the controller replies with the corresponding generic
failure text and the state, in particular pending_delete_id, is unchanged,
so the user may retry. -/
theorem c8_storage_failure_keeps_pending (cfgChat : Option ℤ)
    (fetchRes : Except Unit (Option Activity)) (deleteRes : Except Unit Bool)
    (llmPayload : Except Unit Json) (addStep : ActivityData → Except Unit ℚ)
    (s : BotState) (m : Msg) (aid c : ℤ)
    (hpend : s.pending_delete_id = some aid) (htext : m.text ≠ "")
    (hchat : m.chat_id = some c) (hcm : chatMismatch cfgChat c = false)
    (hfresh : idStale s.last_message_id m.message_id = false)
    (hfail :
      (¬(lowerAscii (pyStrip m.text) = "n" ∨ lowerAscii (pyStrip m.text) = "no")
        ∧ fetchRes = .error ())
      ∨ ((lowerAscii (pyStrip m.text) = "y" ∨ lowerAscii (pyStrip m.text) = "yes")
        ∧ fetchRes = .ok none ∧ deleteRes = .error ())) :
    ∃ msg, handle_message cfgChat fetchRes deleteRes llmPayload addStep s m
        = .ok ⟨[msg], s⟩
      ∧ (msg = "Couldn\x27t load that event. Check logs for details."
        ∨ msg = "Delete failed. Check logs for details.") := by
  rw [handle_message_pending cfgChat fetchRes deleteRes llmPayload addStep s m
    aid c hpend htext hchat hcm hfresh]
  unfold confirmBranch
  rcases hfail with ⟨hnotno, hferr⟩ | ⟨hyes, hfok, hderr⟩
  · subst hferr
    by_cases hy : lowerAscii (pyStrip m.text) = "y" ∨ lowerAscii (pyStrip m.text) = "yes"
    · rw [if_pos (by simp [hy])]
      exact ⟨_, rfl, Or.inl rfl⟩
    · rw [if_neg (by simpa using hy), if_neg (by simpa using hnotno)]
      exact ⟨_, rfl, Or.inl rfl⟩
  · subst hfok
    subst hderr
    rw [if_pos (by simp [hyes])]
    exact ⟨_, rfl, Or.inr rfl⟩

/-- C8 witness: a yes reply with the record already gone and a raising
delete leaves the pending id set and reports the generic delete failure. -/
theorem c8_storage_failure_keeps_pending_witness :
    handle_message (some 99) (.ok none) (.error ()) (.error ()) addStepActual
      ⟨some 99, none, some 10, none, some 7⟩ ⟨some 99, 11, "yes"⟩
      = .ok ⟨["Delete failed. Check logs for details."],
          ⟨some 99, none, some 10, none, some 7⟩⟩ := by
  obtain ⟨msg, heq, hcase⟩ := c8_storage_failure_keeps_pending (some 99)
    (.ok none) (.error ()) (.error ()) addStepActual
    ⟨some 99, none, some 10, none, some 7⟩ ⟨some 99, 11, "yes"⟩ 7 99
    rfl (by decide) rfl (by decide) (by decide)
    (Or.inr ⟨Or.inr (by decide), rfl, rfl⟩)
  rcases hcase with rfl | rfl
  · exact absurd heq (by intro h; exact absurd (congrArg (fun x =>
      match x with | .ok r => r.replies | .error _ => []) h.symm) (by decide))
  · exact heq

/-- The conversation state of the C2 counterexample: delete confirmation
pending for record 7. -/
def c2state : BotState := ⟨some 99, none, some 10, none, some 7⟩

/-- The no reply of the C2 counterexample. -/
def c2msgNo : Msg := ⟨some 99, 11, "no"⟩

/-- C2 counterexample: on a no reply with the target record already gone the
controller clears the pending id and reports cancellation — it never
re-fetches (the outcome is the same whether the fetch oracle reports the
record gone or raises) and no not-found report is produced, contradicting
the claim that every reply triggers a re-fetch whose absence is reported as
not-found. -/
theorem c2_no_reply_counterexample :
    handle_message (some 99) (.ok none) (.ok false) (.error ()) addStepActual
        c2state c2msgNo
      = .ok ⟨["Delete cancelled."], ⟨some 99, none, some 10, none, none⟩⟩
    ∧ handle_message (some 99) (.error ()) (.error ()) (.error ()) addStepActual
        c2state c2msgNo
      = .ok ⟨["Delete cancelled."], ⟨some 99, none, some 10, none, none⟩⟩
    ∧ ("Delete cancelled." : String) ≠ "Event ID 7 was not found." :=
  ⟨rfl, rfl, by decide⟩

/-- C2 (amended): while pending_delete_id is set, a reply of n or no clears
the pending id and reports cancellation without consulting the ledger; a
reply that is neither yes nor no triggers the re-fetch — if the fetch
reports the record gone the pending id is cleared and not-found reported, if
the fetch fails a generic failure is reported and the pending id kept; a yes
reply attempts the delete, and when nothing was deleted clears the pending
id and reports not-found. -/
theorem c2_pending_delete_behavior (cfgChat : Option ℤ)
    (fetchRes : Except Unit (Option Activity)) (deleteRes : Except Unit Bool)
    (llmPayload : Except Unit Json) (addStep : ActivityData → Except Unit ℚ)
    (s : BotState) (m : Msg) (aid c : ℤ)
    (hpend : s.pending_delete_id = some aid) (htext : m.text ≠ "")
    (hchat : m.chat_id = some c) (hcm : chatMismatch cfgChat c = false)
    (hfresh : idStale s.last_message_id m.message_id = false) :
    ((lowerAscii (pyStrip m.text) = "n" ∨ lowerAscii (pyStrip m.text) = "no") →
      handle_message cfgChat fetchRes deleteRes llmPayload addStep s m
        = .ok ⟨["Delete cancelled."], { s with pending_delete_id := none }⟩)
    ∧ (¬(lowerAscii (pyStrip m.text) = "y" ∨ lowerAscii (pyStrip m.text) = "yes") →
       ¬(lowerAscii (pyStrip m.text) = "n" ∨ lowerAscii (pyStrip m.text) = "no") →
        (fetchRes = .ok none →
          handle_message cfgChat fetchRes deleteRes llmPayload addStep s m
            = .ok ⟨["Event ID " ++ toString aid ++ " was not found."],
                { s with pending_delete_id := none }⟩)
        ∧ (fetchRes = .error () →
          handle_message cfgChat fetchRes deleteRes llmPayload addStep s m
            = .ok ⟨["Couldn\x27t load that event. Check logs for details."], s⟩))
    ∧ ((lowerAscii (pyStrip m.text) = "y" ∨ lowerAscii (pyStrip m.text) = "yes") →
        fetchRes = .ok none → deleteRes = .ok false →
        handle_message cfgChat fetchRes deleteRes llmPayload addStep s m
          = .ok ⟨["Event ID " ++ toString aid ++ " was not found."],
              { s with pending_delete_id := none }⟩) := by
  have hred := handle_message_pending cfgChat fetchRes deleteRes llmPayload
    addStep s m aid c hpend htext hchat hcm hfresh
  refine ⟨?_, ?_, ?_⟩
  · intro hno
    have hny : ¬(lowerAscii (pyStrip m.text) = "y"
        ∨ lowerAscii (pyStrip m.text) = "yes") := by
      rcases hno with h | h <;> rw [h] <;> decide
    rw [hred]
    unfold confirmBranch
    rw [if_neg (by simpa using hny), if_pos (by simp [hno])]
  · intro hny hnn
    constructor
    · intro hfok
      subst hfok
      rw [hred]
      unfold confirmBranch
      rw [if_neg (by simpa using hny), if_neg (by simpa using hnn)]
    · intro hferr
      subst hferr
      rw [hred]
      unfold confirmBranch
      rw [if_neg (by simpa using hny), if_neg (by simpa using hnn)]
  · intro hyes hfok hdel
    subst hfok
    subst hdel
    rw [hred]
    unfold confirmBranch
    rw [if_pos (by simp [hyes])]
    rfl

/-- C2 witness: an unrecognized reply with the record gone clears the
pending id and reports not-found; a no reply cancels. -/
theorem c2_pending_delete_behavior_witness :
    handle_message (some 99) (.ok none) (.ok false) (.error ()) addStepActual
        c2state ⟨some 99, 11, "hm"⟩
      = .ok ⟨["Event ID 7 was not found."], ⟨some 99, none, some 10, none, none⟩⟩
    ∧ handle_message (some 99) (.ok none) (.ok false) (.error ()) addStepActual
        c2state c2msgNo
      = .ok ⟨["Delete cancelled."], ⟨some 99, none, some 10, none, none⟩⟩ := by
  constructor
  · have h := (c2_pending_delete_behavior (some 99) (.ok none) (.ok false)
      (.error ()) addStepActual c2state ⟨some 99, 11, "hm"⟩ 7 99
      rfl (by decide) rfl (by decide) (by decide)).2.1
      (by decide) (by decide)
    exact h.1 rfl
  · exact (c2_pending_delete_behavior (some 99) (.ok none) (.ok false)
      (.error ()) addStepActual c2state c2msgNo 7 99
      rfl (by decide) rfl (by decide) (by decide)).1 (Or.inr (by decide))

end HourlyCheckin
